import Mathlib

/-!
Verification development for the AWS Lambda invocation tracing wrapper
(packages/instrumentation-aws-lambda/src/instrumentation.ts).

The definitions below are a shallow embedding of the wrapper. Pure helpers
(cold start classification, account id extraction, URL reconstruction,
parent context resolution) are translated directly. The completion
arbitration of the non-streaming patched handler (patchedHandler,
_wrapCallback, _handlePromiseResult, _endSpan, the hook appliers) is
translated as a state machine over an explicit queue of pending
asynchronous continuations (JavaScript microtask jobs); a schedule picks
which pending continuation runs next, which models the possible settle
orders of the racing completion signals.

External collaborators that are not part of this repository
(safeExecuteInTheMiddle from the instrumentation package, the context and
propagation API, the tracer) are modelled at their documented interface,
as the specification describes them.
-/

namespace AwsLambda

/-- A JavaScript value as seen by the wrapper: the wrapper never inspects
handler results beyond thenable-ness, so a small value universe suffices.
`undef` is the JavaScript undefined value. -/
inductive Val where
  | undef
  | vstr (s : String)
  | vnat (n : Nat)
  deriving DecidableEq

/-- A JavaScript error as handled by _endSpan: either a plain string or an
Error object carrying a message (the only field the wrapper reads). -/
inductive JsErr where
  | strErr (s : String)
  | errObj (message : String)
  deriving DecidableEq

/-- JavaScript truthiness of an error value: an empty string is falsy, an
Error object is always truthy. -/
def JsErr.truthy : JsErr → Bool
  | .strErr s => s ≠ ""
  | .errObj _ => true

/-- Truthiness of the possibly-null err argument (null and undefined are falsy). -/
def errTruthy : Option JsErr → Bool
  | none => false
  | some e => e.truthy

/-- The errMessage computation in _endSpan (lines 599 to 604): a string error
is its own message, an Error object contributes its message field. -/
def errMessageOf : Option JsErr → Option String
  | none => none
  | some (.strErr s) => some s
  | some (.errObj m) => some m

/-- safeExecuteInTheMiddle from the instrumentation utility package, modelled
at its interface: the execute result is returned on success; a thrown error is
reported to the error handler (logging, tracked separately) and, when
preventThrowingError is set, swallowed, leaving an undefined result (`none`);
otherwise it is rethrown. -/
def safeExecuteInTheMiddle {α : Type} (execute : Except JsErr α)
    (preventThrowingError : Bool) : Except JsErr (Option α) :=
  match execute with
  | .ok r => .ok (some r)
  | .error e => if preventThrowingError then .ok none else .error e

/-! ## Cold start tracking (_onRequest, lines 302 to 331) -/

/-- The proactive-initialization threshold (line 72). -/
def lambdaMaxInitInMilliseconds : Int := 10000

/-- The per-wrapper cold start state: the two closure variables of
_getPatchHandler (lines 302 to 303). -/
structure ColdStartState where
  requestHandledBefore : Bool
  requestIsColdStart : Bool
  deriving DecidableEq

/-- The closure state as initialized in _getPatchHandler (lines 302 to 303). -/
def initialColdStartState : ColdStartState :=
  { requestHandledBefore := false, requestIsColdStart := true }

/-- Translation of _onRequest (lines 305 to 331). `env` is the value of
AWS_LAMBDA_INITIALIZATION_TYPE, `now` is Date.now() at the call, and
`lambdaStartTime` the load time captured at patch time. -/
def onRequest (env : Option String) (now lambdaStartTime : Int)
    (s : ColdStartState) : ColdStartState :=
  if s.requestHandledBefore then
    { s with requestIsColdStart := false }
  else if env = some "provisioned-concurrency" then
    { requestIsColdStart := false, requestHandledBefore := true }
  else
    let passedTimeSinceHandlerLoad : Int := now - lambdaStartTime
    let proactiveInitialization : Bool :=
      passedTimeSinceHandlerLoad > lambdaMaxInitInMilliseconds
    { requestIsColdStart := !proactiveInitialization, requestHandledBefore := true }

/-! ## Account id extraction (_extractAccountId, lines 651 to 657) -/

/-- The JavaScript String split builtin for a one-character separator,
modelled at its interface: maximal separator-free runs, keeping empty runs,
so that the split of the empty string is one empty segment. Structurally
recursive so that concrete evaluation reduces. -/
def jsSplitAux (sep : Char) : List Char → List Char → List String
  | [], acc => [String.mk acc.reverse]
  | c :: rest, acc =>
    if c = sep then String.mk acc.reverse :: jsSplitAux sep rest []
    else jsSplitAux sep rest (c :: acc)

/-- JavaScript s.split(sep) for a one-character separator. -/
def jsSplit (s : String) (sep : Char) : List String :=
  jsSplitAux sep s.data []

/-- Translation of the static _extractAccountId: split the ARN on colons and
return the fifth segment when at least five segments exist. -/
def extractAccountId (arn : String) : Option String :=
  let parts := jsSplit arn ':'
  if parts.length ≥ 5 then parts.get? 4 else none

/-! ## URL reconstruction (_extractFullUrl, lines 674 to 709) -/

/-- The HTTP-gateway-shaped part of an invocation event that
_extractFullUrl consults. Headers are a JavaScript object, modelled as an
association list with first-match lookup. -/
structure ApiGwEvent where
  headers : Option (List (String × String)) := none
  path : Option String := none
  rawPath : Option String := none
  queryStringParameters : Option (List (String × String)) := none
  deriving DecidableEq

/-- JavaScript object property read on a headers object. -/
def lookupHeader (hs : List (String × String)) (k : String) : Option String :=
  (hs.find? (fun p => p.1 = k)).map (fun p => p.2)

/-- JavaScript truthiness of an optional string (undefined and the empty
string are falsy). -/
def jsTruthyStr : Option String → Bool
  | none => false
  | some s => s ≠ ""

/-- The findAny helper inside _extractFullUrl (lines 680 to 686): first key,
then the second via the nullish coalescing operator. -/
def findAny (e : ApiGwEvent) (key1 key2 : String) : Option String :=
  match e.headers with
  | none => none
  | some hs => (lookupHeader hs key1).orElse (fun _ => lookupHeader hs key2)

/-- Uppercase hexadecimal digit for n < 16. -/
def hexDigitUpper (n : Nat) : Char :=
  if n < 10 then Char.ofNat (48 + n) else Char.ofNat (55 + n)

/-- Percent-encoding of one byte, uppercase, as produced by
encodeURIComponent. -/
def byteToPercentHex (b : UInt8) : String :=
  let n := b.toNat
  String.mk ['%', hexDigitUpper (n / 16), hexDigitUpper (n % 16)]

/-- The characters encodeURIComponent leaves unescaped. -/
def isUnreservedUriChar (c : Char) : Bool :=
  c.isAlphanum || c = '-' || c = '_' || c = '.' || c = '!' || c = '~' ||
  c = '*' || c = Char.ofNat 39 || c = '(' || c = ')'

/-- The JavaScript encodeURIComponent builtin, modelled at its interface:
unreserved characters pass through, every other character is replaced by the
uppercase percent-encoding of its UTF-8 bytes. -/
def encodeURIComponent (s : String) : String :=
  String.join (s.data.map (fun c =>
    if isUnreservedUriChar c then String.mk [c]
    else String.join (((String.mk [c]).toUTF8.toList).map byteToPercentHex)))

/-- Translation of the static _extractFullUrl (lines 674 to 709): requires a
headers object, truthy forwarded proto and host headers, and a truthy path or
rawPath; appends the optional forwarded port, the path (path via nullish
coalescing with rawPath), and the query pairs each percent-encoded, the first
preceded by a question mark, the rest by ampersands. -/
def extractFullUrl (event : ApiGwEvent) : Option String :=
  match event.headers with
  | none => none
  | some _ =>
    let host := findAny event "host" "Host"
    let proto := findAny event "x-forwarded-proto" "X-Forwarded-Proto"
    let port := findAny event "x-forwarded-port" "X-Forwarded-Port"
    if !(jsTruthyStr proto && jsTruthyStr host &&
        (jsTruthyStr event.path || jsTruthyStr event.rawPath)) then
      none
    else
      let answer := proto.getD "" ++ "://" ++ host.getD ""
      let answer := if jsTruthyStr port then answer ++ ":" ++ port.getD "" else answer
      let answer := answer ++
        (match event.path with
         | some p => p
         | none => event.rawPath.getD "")
      let answer :=
        match event.queryStringParameters with
        | none => answer
        | some qs =>
          (qs.foldl
            (fun (acc : String × Bool) kv =>
              (acc.1 ++ (if acc.2 then "?" else "&") ++
                encodeURIComponent kv.1 ++ "=" ++ encodeURIComponent kv.2,
               false))
            (answer, true)).1
      some answer

/-! ## Span attributes (_createSpanForRequest, lines 428 to 451, and
_extractOtherEventFields, lines 665 to 672). Attribute keys are the emitted
span schema of the specification. -/

/-- Span attribute values occurring in the wrapper. -/
inductive AttrVal where
  | s (v : String)
  | b (v : Bool)
  deriving DecidableEq

/-- The per-invocation metadata fields of the Lambda context that the span
factory reads. -/
structure LambdaContextMeta where
  functionName : String
  awsRequestId : String
  invokedFunctionArn : String
  deriving DecidableEq

/-- The attribute list built by _createSpanForRequest: execution id, function
ARN, optional account id, cold start flag, and the optional full URL from
_extractOtherEventFields. Attributes with undefined values are absent. -/
def createSpanAttributes (event : ApiGwEvent) (ctx : LambdaContextMeta)
    (requestIsColdStart : Bool) : List (String × AttrVal) :=
  [("faas.execution", AttrVal.s ctx.awsRequestId),
   ("faas.id", AttrVal.s ctx.invokedFunctionArn)] ++
  (match extractAccountId ctx.invokedFunctionArn with
   | some acc => [("cloud.account.id", AttrVal.s acc)]
   | none => []) ++
  [("faas.coldstart", AttrVal.b requestIsColdStart)] ++
  (match extractFullUrl event with
   | some u => [("url.full", AttrVal.s u)]
   | none => [])

/-- First-match attribute lookup on a span attribute list. -/
def findAttr (attrs : List (String × AttrVal)) (k : String) : Option AttrVal :=
  (attrs.find? (fun p => p.1 = k)).map (fun p => p.2)

/-! ## Parent context resolution (_determineParent, lines 711 to 731, and
_defaultEventContextExtractor, lines 659 to 663) -/

/-- A span context as carried by the OpenTelemetry context API. -/
structure SpanContext where
  traceId : String
  spanId : String
  isRemote : Bool
  deriving DecidableEq

/-- Modelled from the spec: the slice of the OpenTelemetry Context that
_determineParent consults through trace.getSpan, namely an optional span
entry. -/
structure OtelContext where
  spanEntry : Option SpanContext
  deriving DecidableEq

/-- The root context: no parent span. -/
def ROOT_CONTEXT : OtelContext := { spanEntry := none }

/-- trace.getSpan followed by spanContext(), modelled at the API interface:
yields the span context stored in the context, if any. -/
def getSpanContextOf (c : OtelContext) : Option SpanContext := c.spanEntry

/-- A lowercase hexadecimal character, as required by the W3C trace context
format. -/
def isLowerHexChar (c : Char) : Bool :=
  c.isDigit || (97 ≤ c.toNat && c.toNat ≤ 102)

/-- Modelled from the spec: validity of a trace id per the OpenTelemetry API
(32 lowercase hex characters, not all zero). -/
def isValidTraceId (t : String) : Bool :=
  t.length = 32 && t.data.all isLowerHexChar && t.data.any (fun c => c ≠ '0')

/-- Modelled from the spec: validity of a span id per the OpenTelemetry API
(16 lowercase hex characters, not all zero). -/
def isValidSpanId (t : String) : Bool :=
  t.length = 16 && t.data.all isLowerHexChar && t.data.any (fun c => c ≠ '0')

/-- Modelled from the spec: the OpenTelemetry API notion of a valid span
context (valid trace id and valid span id). -/
def isSpanContextValid (sc : SpanContext) : Bool :=
  isValidTraceId sc.traceId && isValidSpanId sc.spanId

/-- Modelled from the spec: W3C traceparent parsing performed by the standard
propagator inside propagation.extract. Accepts version-traceid-spanid-flags
with two lowercase hex version characters other than ff, a valid trace id, a
valid span id and two lowercase hex flag characters; the resulting span entry
is remote. -/
def parseTraceparent (s : String) : Option SpanContext :=
  match jsSplit s '-' with
  | [ver, tid, sid, flags] =>
    if ver.length = 2 && ver.data.all isLowerHexChar && ver ≠ "ff" &&
        isValidTraceId tid && isValidSpanId sid &&
        flags.length = 2 && flags.data.all isLowerHexChar then
      some { traceId := tid, spanId := sid, isRemote := true }
    else
      none
  | _ => none

/-- Translation of the static _defaultEventContextExtractor (lines 659 to
663): read the headers object of the event (an absent headers field behaves
as an empty object) and run standard trace context extraction over it, which
adds a remote span entry to the active (root) context exactly for a valid
traceparent carrier. The extraction itself is modelled from the spec. -/
def defaultEventContextExtractor (event : ApiGwEvent) : OtelContext :=
  let httpHeaders := event.headers.getD []
  match (lookupHeader httpHeaders "traceparent").bind parseTraceparent with
  | some sc => { spanEntry := some sc }
  | none => ROOT_CONTEXT

/-- Modelled from the @opentelemetry/api implementation of trace.getSpan:
it reads context.getValue unconditionally, so calling it on the undefined
context raises a TypeError (the optional chaining in the source guards only
the result of getSpan, not its argument). -/
def getSpanUndefinedTypeError : JsErr :=
  JsErr.errObj "TypeError: Cannot read properties of undefined (reading getValue)"

/-- Translation of the static _determineParent (lines 711 to 731). The
argument is the outcome of running the configured event context extractor on
the event and context. The run is guarded by safeExecuteInTheMiddle with
preventThrowingError set, so a throwing extractor is caught and logged there
and yields an undefined extracted context — but the next line calls
trace.getSpan on that undefined context, which raises a TypeError that
escapes _determineParent to the caller. A returned context is used as parent
whenever it carries a span entry (there is no validity or remoteness check),
and the root context is returned otherwise. The result is the returned
parent context or the escaping exception. -/
def determineParent (extractorRun : Except JsErr OtelContext) :
    Except JsErr OtelContext :=
  match safeExecuteInTheMiddle extractorRun true with
  | .error e => .error e
  | .ok none => .error getSpanUndefinedTypeError
  | .ok (some extractedContext) =>
    if (getSpanContextOf extractedContext).isSome then .ok extractedContext
    else .ok ROOT_CONTEXT

/-- The W3C span context carried by the scenario traceparent header. -/
def scenarioCarrierSpanContext : SpanContext :=
  { traceId := "0af7651916cd43dd8448eb211c80319c",
    spanId := "b7ad6b7169203331", isRemote := true }

/-- An event carrying a valid propagated trace context carrier in its
headers. -/
def scenarioCarrierEvent : ApiGwEvent :=
  { headers := some [("traceparent",
      "00-0af7651916cd43dd8448eb211c80319c-b7ad6b7169203331-01")] }

/-- Modelled from the spec: the tracer creates the span under the resolved
parent context, adopting the parent trace id exactly when the parent carries
a valid span context, and a freshly generated trace id otherwise. -/
def startSpanTraceId (parent : OtelContext) (freshId : String) : String :=
  match getSpanContextOf parent with
  | some sc => if isSpanContextValid sc then sc.traceId else freshId
  | none => freshId

/-! ## The completion arbitration machine

Translation of the non-streaming patchedHandler (lines 370 to 425) together
with _wrapCallback (lines 569 to 588), _handlePromiseResult (lines 466 to
507), _endSpan (lines 590 to 631), _applyRequestHook (lines 453 to 464) and
_applyResponseHook (lines 633 to 649).

The synchronous part of an invocation is a pure state transformer; every
asynchronous continuation the wrapper creates (the then-callbacks of the
returned promise, the settling of Promise.all over the force flushers, a
deferred callback invocation by the handler) is enqueued as a pending event.
A schedule then picks which pending event settles next, covering every
interleaving the JavaScript microtask queue could produce. -/

/-- Mutable span record: exception records, ERROR status messages, and how
many times end() was called. -/
structure SpanRec where
  exceptions : List JsErr := []
  statusMessages : List String := []
  endCount : Nat := 0
  deriving DecidableEq

/-- The recordException / setStatus / end() section of _endSpan (lines 595
to 612): record the exception when the error is truthy, set an ERROR status
when the computed message is truthy, then end the span. -/
def recordErrOnSpan (sp : SpanRec) (err : Option JsErr) : SpanRec :=
  let sp :=
    match err with
    | some e => if e.truthy then { sp with exceptions := sp.exceptions ++ [e] } else sp
    | none => sp
  let sp :=
    match errMessageOf err with
    | some m => if m = "" then sp else { sp with statusMessages := sp.statusMessages ++ [m] }
    | none => sp
  { sp with endCount := sp.endCount + 1 }

/-- Behavior of a configured force-flush capability on one call. -/
inductive FlushBeh where
  | resolves
  | rejects (e : JsErr)
  | throwsSync (e : JsErr)
  deriving DecidableEq

/-- Behavior of a configured user hook on one call. -/
inductive HookBeh where
  | ok
  | throws (e : JsErr)
  deriving DecidableEq

/-- The wrapper configuration the completion machine consults: the two
optional force flushers and the two optional user hooks. -/
structure Cfg where
  traceFlusher : Option FlushBeh := none
  metricFlusher : Option FlushBeh := none
  requestHook : Option HookBeh := none
  responseHook : Option HookBeh := none
  deriving DecidableEq

/-- A flusher behavior that throws synchronously when called. -/
def FlushBeh.throwsSynchronously : FlushBeh → Bool
  | .throwsSync _ => true
  | _ => false

/-- No configured flusher throws synchronously (force flush is specified to
return a promise; a rejected promise is still allowed). -/
def Cfg.flushersSafe (c : Cfg) : Bool :=
  (match c.traceFlusher with
   | some b => !b.throwsSynchronously
   | none => true) &&
  (match c.metricFlusher with
   | some b => !b.throwsSynchronously
   | none => true)

/-- A configured hook behavior that throws. -/
def hookThrows : Option HookBeh → Bool
  | some (.throws _) => true
  | _ => false

/-- The settlement of a promise. -/
inductive Outcome where
  | fulfilled (v : Val)
  | rejected (e : JsErr)
  deriving DecidableEq

/-- The continuation passed to _endSpan, run when Promise.all over the
flushers settles: the discarded continuation (the literal empty arrow
function), the wrapped-callback continuation that marks the span ended and
invokes the original host callback, and the resolve / reject continuations
of the promises _handlePromiseResult returns. -/
inductive FlushK where
  | discard
  | afterCb (e : Option JsErr) (r : Val)
  | resolveWith (v : Val)
  | rejectWith (e : JsErr)
  deriving DecidableEq

/-- A pending asynchronous continuation. -/
inductive Ev where
  | promiseSettled
  | cbFires
  | flushDone (k : FlushK)
  deriving DecidableEq

/-- The observable state of one invocation. -/
structure St where
  span : SpanRec := {}
  spanEnded : Bool := false
  requestHookRuns : Nat := 0
  responseHookObservations : List (Option JsErr × Val) := []
  hookErrorsLogged : Nat := 0
  traceFlushCalls : Nat := 0
  metricFlushCalls : Nat := 0
  noFlusherDiag : Nat := 0
  hostCbCalls : List (Option JsErr × Val) := []
  resultOutcome : Option Outcome := none
  uncaught : List JsErr := []
  pending : List Ev := []
  deriving DecidableEq

/-- What the handler does: it may invoke the provided callback synchronously
before returning, it may invoke it later (a scheduled continuation), and it
returns by throwing, by returning a non-thenable value, or by returning a
promise with the given eventual settlement. -/
inductive RetKind where
  | throwSync (e : JsErr)
  | retValue (v : Val)
  | retPromise (o : Outcome)
  deriving DecidableEq

/-- Description of one handler invocation as offered to the wrapper. -/
structure HandlerDesc where
  syncCb : Option (Option JsErr × Val) := none
  asyncCb : Option (Option JsErr × Val) := none
  ret : RetKind
  deriving DecidableEq

/-- What the wrapped handler delivers synchronously to the host: a rethrown
error, a plain return value, or a promise (whose settlement is recorded in
resultOutcome). -/
inductive ImmediateResult where
  | threw (e : JsErr)
  | retVal (v : Val)
  | retPromise
  deriving DecidableEq

/-- Translation of _applyRequestHook (lines 453 to 464): the configured hook
runs inside safeExecuteInTheMiddle with preventThrowingError, so a throwing
hook is caught and logged as a diagnostic. -/
def applyRequestHook (cfg : Cfg) (s : St) : St :=
  match cfg.requestHook with
  | none => s
  | some .ok => { s with requestHookRuns := s.requestHookRuns + 1 }
  | some (.throws _) =>
    { s with requestHookRuns := s.requestHookRuns + 1,
             hookErrorsLogged := s.hookErrorsLogged + 1 }

/-- Translation of _applyResponseHook (lines 633 to 649): records the
(err, res) pair passed to it; the configured hook runs inside
safeExecuteInTheMiddle with preventThrowingError, so a throwing hook is
caught and logged as a diagnostic. -/
def applyResponseHook (cfg : Cfg) (s : St) (e : Option JsErr) (r : Val) : St :=
  let s := { s with responseHookObservations := s.responseHookObservations ++ [(e, r)] }
  match cfg.responseHook with
  | some (.throws _) => { s with hookErrorsLogged := s.hookErrorsLogged + 1 }
  | _ => s

/-- Translation of _endSpan (lines 590 to 631): record the error on the span
and end it, call each configured force flusher (a missing flusher only logs
a diagnostic), and attach the continuation to Promise.all over the flushers,
which runs when they settle (enqueued as a flushDone event). A force flusher
that throws synchronously makes _endSpan itself throw (returned as the
second component); the continuation is then never scheduled. -/
def endSpanStep (cfg : Cfg) (s0 : St) (err : Option JsErr) (k : FlushK) :
    St × Option JsErr :=
  let s1 := { s0 with span := recordErrOnSpan s0.span err }
  match cfg.traceFlusher with
  | some (.throwsSync e) => ({ s1 with traceFlushCalls := s1.traceFlushCalls + 1 }, some e)
  | tf =>
    let s2 :=
      match tf with
      | none => { s1 with noFlusherDiag := s1.noFlusherDiag + 1 }
      | some _ => { s1 with traceFlushCalls := s1.traceFlushCalls + 1 }
    match cfg.metricFlusher with
    | some (.throwsSync e) =>
      ({ s2 with metricFlushCalls := s2.metricFlushCalls + 1 }, some e)
    | mf =>
      let s3 :=
        match mf with
        | none => { s2 with noFlusherDiag := s2.noFlusherDiag + 1 }
        | some _ => { s2 with metricFlushCalls := s2.metricFlushCalls + 1 }
      ({ s3 with pending := s3.pending ++ [Ev.flushDone k] }, none)

/-- Translation of the wrappedCallback built by _wrapCallback (lines 569 to
588): apply the response hook with the callback arguments, then end the span
with the continuation that marks the span ended and invokes the original
host callback. There is no span-ended guard on this path. -/
def wrappedCallbackStep (cfg : Cfg) (s : St) (e : Option JsErr) (r : Val) :
    St × Option JsErr :=
  let s1 := applyResponseHook cfg s e r
  endSpanStep cfg s1 e (FlushK.afterCb e r)

/-- The error handler of safeExecuteInTheMiddle around the handler call
(lines 414 to 420) followed by the rethrow: apply the response hook with the
error and no result, end the span with the discarded continuation, and
rethrow. When _endSpan itself throws (synchronously throwing flusher), that
exception replaces the original one, since it escapes the finally block. -/
def handleSyncThrow (cfg : Cfg) (s : St) (e : JsErr) : St × ImmediateResult :=
  let s1 := applyResponseHook cfg s (some e) Val.undef
  match endSpanStep cfg s1 (some e) FlushK.discard with
  | (s2, none) => (s2, ImmediateResult.threw e)
  | (s2, some e2) => (s2, ImmediateResult.threw e2)

/-- The non-thenable branch of _handlePromiseResult (lines 498 to 506): if
the span-ended flag is set, return the value unchanged; otherwise apply the
response hook with no error and the returned value, end the span with the
discarded continuation, and return the value. An exception escaping _endSpan
propagates out of the patched handler. -/
def handleSyncReturn (cfg : Cfg) (s : St) (v : Val) : St × ImmediateResult :=
  if s.spanEnded then (s, ImmediateResult.retVal v)
  else
    let s1 := applyResponseHook cfg s none v
    match endSpanStep cfg s1 none FlushK.discard with
    | (s2, none) => (s2, ImmediateResult.retVal v)
    | (s2, some e2) => (s2, ImmediateResult.threw e2)

/-- The then-continuations _handlePromiseResult attaches to a returned
promise (lines 471 to 495), run when that promise settles: when the
span-ended flag is set the settlement passes through unchanged; otherwise
the response hook runs, the span is ended, and the promise the wrapper
returned settles from the flush continuation. An exception escaping _endSpan
is thrown inside the promise executor and rejects the returned promise. -/
def promiseSettledStep (cfg : Cfg) (desc : HandlerDesc) (s : St) : St :=
  match desc.ret with
  | .retPromise (.fulfilled v) =>
    if s.spanEnded then { s with resultOutcome := some (Outcome.fulfilled v) }
    else
      let s1 := applyResponseHook cfg s none v
      match endSpanStep cfg s1 none (FlushK.resolveWith v) with
      | (s2, none) => s2
      | (s2, some e2) => { s2 with resultOutcome := some (Outcome.rejected e2) }
  | .retPromise (.rejected e) =>
    if s.spanEnded then { s with resultOutcome := some (Outcome.rejected e) }
    else
      let s1 := applyResponseHook cfg s (some e) Val.undef
      match endSpanStep cfg s1 (some e) (FlushK.rejectWith e) with
      | (s2, none) => s2
      | (s2, some e2) => { s2 with resultOutcome := some (Outcome.rejected e2) }
  | _ => s

/-- A deferred callback invocation by the handler: the wrappedCallback runs
with the recorded arguments; an exception escaping it (synchronously
throwing flusher) surfaces in the host timer context as an uncaught error. -/
def cbFiresStep (cfg : Cfg) (desc : HandlerDesc) (s : St) : St :=
  match desc.asyncCb with
  | none => s
  | some a =>
    match wrappedCallbackStep cfg s a.1 a.2 with
    | (s1, none) => s1
    | (s1, some e2) => { s1 with uncaught := s1.uncaught ++ [e2] }

/-- Run the continuation attached to the settling of Promise.all over the
flushers: nothing for the discarded continuation; the wrapped-callback
continuation sets the span-ended flag and invokes the original host
callback; the promise continuations settle the promise the wrapper
returned. -/
def runFlushK (s : St) : FlushK → St
  | .discard => s
  | .afterCb e r =>
    { s with spanEnded := true, hostCbCalls := s.hostCbCalls ++ [(e, r)] }
  | .resolveWith v => { s with resultOutcome := some (Outcome.fulfilled v) }
  | .rejectWith e => { s with resultOutcome := some (Outcome.rejected e) }

/-- Dispatch one settled event. -/
def execEvent (cfg : Cfg) (desc : HandlerDesc) (s : St) : Ev → St
  | .promiseSettled => promiseSettledStep cfg desc s
  | .cbFires => cbFiresStep cfg desc s
  | .flushDone k => runFlushK s k

/-- One scheduler step: pick the pending event indexed by i (modulo the
queue length), remove it from the queue, and run it. -/
def step (cfg : Cfg) (desc : HandlerDesc) (s : St) (i : Nat) : St :=
  if h : s.pending.length = 0 then s
  else
    let j : Fin s.pending.length :=
      ⟨i % s.pending.length, Nat.mod_lt _ (Nat.pos_of_ne_zero h)⟩
    execEvent cfg desc { s with pending := s.pending.eraseIdx j.val }
      (s.pending.get j)

/-- Run a whole schedule of steps. -/
def runSched (cfg : Cfg) (desc : HandlerDesc) (s : St) : List Nat → St
  | [] => s
  | i :: rest => runSched cfg desc (step cfg desc s i) rest

/-- Translation of the synchronous part of one invocation of patchedHandler
(lines 370 to 425): the request hook runs, the handler body runs (possibly
invoking the wrapped callback synchronously; an exception escaping the
wrapped callback propagates out of the handler body), and the result is
dispatched: a synchronous throw takes the safeExecuteInTheMiddle error path
and is rethrown; a non-thenable return takes the synchronous branch of
_handlePromiseResult; a returned promise gets the then-continuations
attached and its eventual settlement enqueued. A deferred callback
invocation by the handler is enqueued as well. -/
def invokeSync (cfg : Cfg) (desc : HandlerDesc) : St × ImmediateResult :=
  let s1 := applyRequestHook cfg {}
  let afterBody :
      St × Option JsErr :=
    match desc.syncCb with
    | none => (s1, none)
    | some a => wrappedCallbackStep cfg s1 a.1 a.2
  let res :=
    match afterBody with
    | (s2, some ex) => handleSyncThrow cfg s2 ex
    | (s2, none) =>
      match desc.ret with
      | .throwSync e => handleSyncThrow cfg s2 e
      | .retValue v => handleSyncReturn cfg s2 v
      | .retPromise _ =>
        ({ s2 with pending := s2.pending ++ [Ev.promiseSettled] },
         ImmediateResult.retPromise)
  match desc.asyncCb with
  | none => res
  | some _ => ({ res.1 with pending := res.1.pending ++ [Ev.cbFires] }, res.2)

/-- A whole invocation: the synchronous part followed by a schedule of
asynchronous continuations. -/
def invoke (cfg : Cfg) (desc : HandlerDesc) (sched : List Nat) :
    St × ImmediateResult :=
  let r := invokeSync cfg desc
  (runSched cfg desc r.1 sched, r.2)

/-! ## Derived notions used by the statements -/

/-- A handler that only returns a non-thenable value. -/
def syncRetDesc (v : Val) : HandlerDesc :=
  { syncCb := none, asyncCb := none, ret := RetKind.retValue v }

/-- A handler that only throws synchronously. -/
def syncThrowDesc (e : JsErr) : HandlerDesc :=
  { syncCb := none, asyncCb := none, ret := RetKind.throwSync e }

/-- A handler that only returns a promise with the given settlement. -/
def promiseDesc (o : Outcome) : HandlerDesc :=
  { syncCb := none, asyncCb := none, ret := RetKind.retPromise o }

/-- A classic callback-style handler: it synchronously invokes its completion
callback with (null, "R") and then returns undefined. -/
def descC1 : HandlerDesc :=
  { syncCb := some (none, Val.vstr "R"), asyncCb := none,
    ret := RetKind.retValue Val.undef }

/-- A handler that synchronously invokes its callback with (null, "R") and
also returns a promise that fulfills with "done". -/
def descC2 : HandlerDesc :=
  { syncCb := some (none, Val.vstr "R"), asyncCb := none,
    ret := RetKind.retPromise (Outcome.fulfilled (Val.vstr "done")) }

/-- A configuration with a normally resolving trace force flusher and no
metric force flusher. -/
def cfg4 : Cfg := { traceFlusher := some FlushBeh.resolves }

/-- A configuration whose two force-flush capabilities throw synchronously on
every call. -/
def cfg5 : Cfg :=
  { traceFlusher := some (FlushBeh.throwsSync (JsErr.errObj "flushfail")),
    metricFlusher := some (FlushBeh.throwsSync (JsErr.errObj "flushfail")) }

/-- A configuration with both force flushers configured with the given
behaviors and no hooks. -/
def cfgFlush (tb mb : FlushBeh) : Cfg :=
  { traceFlusher := some tb, metricFlusher := some mb }

/-- Replace the hook configuration. -/
def Cfg.withHooks (c : Cfg) (rq rs : Option HookBeh) : Cfg :=
  { c with requestHook := rq, responseHook := rs }

/-- The (err, res) pair a promise settlement feeds to the response hook. -/
def flushObs (o : Outcome) : Option JsErr × Val :=
  match o with
  | .fulfilled v => (none, v)
  | .rejected e => (some e, Val.undef)

/-- The flush continuation created for a promise settlement. -/
def matchingFlushK (o : Outcome) : FlushK :=
  match o with
  | .fulfilled v => FlushK.resolveWith v
  | .rejected e => FlushK.rejectWith e

/-- Equality of invocation states on every observable field except the count
of hook errors logged as diagnostics. -/
def StEqv (s t : St) : Prop :=
  s.span = t.span ∧ s.spanEnded = t.spanEnded ∧
  s.requestHookRuns = t.requestHookRuns ∧
  s.responseHookObservations = t.responseHookObservations ∧
  s.traceFlushCalls = t.traceFlushCalls ∧
  s.metricFlushCalls = t.metricFlushCalls ∧
  s.noFlusherDiag = t.noFlusherDiag ∧
  s.hostCbCalls = t.hostCbCalls ∧
  s.resultOutcome = t.resultOutcome ∧
  s.uncaught = t.uncaught ∧
  s.pending = t.pending

/-- Consistency of one pending event with the handler description: flush
continuations can only carry data that the corresponding completion signal
produced. -/
def descEventOk (desc : HandlerDesc) : Ev → Prop
  | .promiseSettled => True
  | .cbFires => True
  | .flushDone .discard => True
  | .flushDone (.afterCb e r) =>
    desc.syncCb = some (e, r) ∨ desc.asyncCb = some (e, r)
  | .flushDone (.resolveWith v) => desc.ret = RetKind.retPromise (Outcome.fulfilled v)
  | .flushDone (.rejectWith e) => desc.ret = RetKind.retPromise (Outcome.rejected e)

/-- The machine invariant for outcome preservation: pending events are
consistent with the handler description, the recorded settlement of the
wrapper promise is the settlement of the handler promise, every completion
signal is either delivered or still in flight, and host callback invocations
carry exactly the arguments the handler supplied. -/
structure Inv (desc : HandlerDesc) (s : St) : Prop where
  events : ∀ ev ∈ s.pending, descEventOk desc ev
  outcome : ∀ o, s.resultOutcome = some o → desc.ret = RetKind.retPromise o
  progress : ∀ o, desc.ret = RetKind.retPromise o →
    s.resultOutcome = some o ∨ Ev.promiseSettled ∈ s.pending ∨
    Ev.flushDone (matchingFlushK o) ∈ s.pending
  syncCbProg : ∀ a, desc.syncCb = some a →
    a ∈ s.hostCbCalls ∨ Ev.flushDone (FlushK.afterCb a.1 a.2) ∈ s.pending
  asyncCbProg : ∀ a, desc.asyncCb = some a →
    a ∈ s.hostCbCalls ∨ Ev.cbFires ∈ s.pending ∨
    Ev.flushDone (FlushK.afterCb a.1 a.2) ∈ s.pending
  calls : ∀ a ∈ s.hostCbCalls, desc.syncCb = some a ∨ desc.asyncCb = some a

/-- The state after the handler promise settlement has been processed for a
both-flushers configuration (span ended, both flushers called once, the
joined flush still pending). -/
def c5mid (o : Outcome) : St :=
  { span := recordErrOnSpan {} (flushObs o).1,
    responseHookObservations := [flushObs o],
    traceFlushCalls := 1,
    metricFlushCalls := 1,
    pending := [Ev.flushDone (matchingFlushK o)] }

/-- The state after the joined flush has settled: only now is the wrapper
promise settled, with the handler settlement. -/
def c5fin (o : Outcome) : St :=
  { span := recordErrOnSpan {} (flushObs o).1,
    responseHookObservations := [flushObs o],
    traceFlushCalls := 1,
    metricFlushCalls := 1,
    pending := [],
    resultOutcome := some o }

/-- Reachable states of an invocation of a promise-returning handler with
both force flushers configured. -/
def ReachC5 (o : Outcome) (s : St) : Prop :=
  s = { pending := [Ev.promiseSettled] } ∨ s = c5mid o ∨ s = c5fin o

/-- Rendering of the query pairs following the words of the specification:
each pair percent-encoded as key=value, pairs joined with ampersands, the
whole preceded by a question mark when query parameters exist. -/
def ampJoin : List (String × String) → String
  | [] => ""
  | kv :: rest =>
    "&" ++ encodeURIComponent kv.1 ++ "=" ++ encodeURIComponent kv.2 ++ ampJoin rest

/-- Specification-side query string: empty without query parameters,
otherwise a question mark followed by the percent-encoded pairs joined with
ampersands. -/
def specQueryString : List (String × String) → String
  | [] => ""
  | kv :: rest =>
    "?" ++ encodeURIComponent kv.1 ++ "=" ++ encodeURIComponent kv.2 ++ ampJoin rest

/-- A span context that is present but invalid (all-zero ids), as a
user-supplied extractor may produce. -/
def invalidRemoteSpanContext : SpanContext :=
  { traceId := "00000000000000000000000000000000",
    spanId := "0000000000000000", isRemote := true }

/-- A context carrying the invalid span context. -/
def invalidRemoteCtx : OtelContext := { spanEntry := some invalidRemoteSpanContext }

/-- The trace force flusher is configured and throws synchronously. -/
def Cfg.traceThrowsSync (c : Cfg) : Bool :=
  match c.traceFlusher with
  | some (FlushBeh.throwsSync _) => true
  | _ => false

/-- The metric force flusher is configured and throws synchronously. -/
def Cfg.metricThrowsSync (c : Cfg) : Bool :=
  match c.metricFlusher with
  | some (FlushBeh.throwsSync _) => true
  | _ => false

/-- The exception escaping _endSpan, if any: the trace flusher throw wins,
else the metric flusher throw, else none. -/
def Cfg.endSpanThrow (c : Cfg) : Option JsErr :=
  match c.traceFlusher with
  | some (FlushBeh.throwsSync e) => some e
  | _ =>
    match c.metricFlusher with
    | some (FlushBeh.throwsSync e) => some e
    | _ => none

/-- The event of the URL reconstruction scenario. -/
def urlScenarioEvent : ApiGwEvent :=
  { headers := some [("host", "example.com"), ("x-forwarded-proto", "https")],
    path := some "/test",
    queryStringParameters := some [("a", "1"), ("b", "2")] }

/-! ## Characterization lemmas for the machine transitions -/

theorem applyRequestHook_eq (cfg : Cfg) (s : St) :
    applyRequestHook cfg s =
      { s with requestHookRuns :=
                 s.requestHookRuns + (if cfg.requestHook.isSome then 1 else 0),
               hookErrorsLogged :=
                 s.hookErrorsLogged + (if hookThrows cfg.requestHook then 1 else 0) } := by
  cases h : cfg.requestHook with
  | none => simp [applyRequestHook, h, hookThrows]
  | some b => cases b <;> simp [applyRequestHook, h, hookThrows]

theorem applyResponseHook_eq (cfg : Cfg) (s : St) (e : Option JsErr) (r : Val) :
    applyResponseHook cfg s e r =
      { s with responseHookObservations := s.responseHookObservations ++ [(e, r)],
               hookErrorsLogged :=
                 s.hookErrorsLogged + (if hookThrows cfg.responseHook then 1 else 0) } := by
  cases h : cfg.responseHook with
  | none => simp [applyResponseHook, h, hookThrows]
  | some b => cases b <;> simp [applyResponseHook, h, hookThrows]

theorem endSpanStep_safe (cfg : Cfg) (hs : cfg.flushersSafe = true) (s : St)
    (err : Option JsErr) (k : FlushK) :
    endSpanStep cfg s err k =
      ({ s with span := recordErrOnSpan s.span err,
                traceFlushCalls :=
                  s.traceFlushCalls + (if cfg.traceFlusher.isSome then 1 else 0),
                metricFlushCalls :=
                  s.metricFlushCalls + (if cfg.metricFlusher.isSome then 1 else 0),
                noFlusherDiag :=
                  s.noFlusherDiag + (if cfg.traceFlusher.isSome then 0 else 1) +
                    (if cfg.metricFlusher.isSome then 0 else 1),
                pending := s.pending ++ [Ev.flushDone k] }, none) := by
  unfold Cfg.flushersSafe at hs
  cases htf : cfg.traceFlusher with
  | none =>
    cases hmf : cfg.metricFlusher with
    | none => simp [endSpanStep, htf, hmf]
    | some mb =>
      rw [htf, hmf] at hs
      cases mb <;> simp_all [endSpanStep, htf, hmf, FlushBeh.throwsSynchronously]
  | some tb =>
    rw [htf] at hs
    cases hmf : cfg.metricFlusher with
    | none =>
      cases tb <;> simp_all [endSpanStep, htf, hmf, FlushBeh.throwsSynchronously]
    | some mb =>
      rw [hmf] at hs
      cases tb <;> cases mb <;>
        simp_all [endSpanStep, htf, hmf, FlushBeh.throwsSynchronously]

theorem wrappedCallbackStep_safe (cfg : Cfg) (hs : cfg.flushersSafe = true)
    (s : St) (e : Option JsErr) (r : Val) :
    wrappedCallbackStep cfg s e r =
      ({ s with span := recordErrOnSpan s.span e,
                responseHookObservations := s.responseHookObservations ++ [(e, r)],
                hookErrorsLogged :=
                  s.hookErrorsLogged + (if hookThrows cfg.responseHook then 1 else 0),
                traceFlushCalls :=
                  s.traceFlushCalls + (if cfg.traceFlusher.isSome then 1 else 0),
                metricFlushCalls :=
                  s.metricFlushCalls + (if cfg.metricFlusher.isSome then 1 else 0),
                noFlusherDiag :=
                  s.noFlusherDiag + (if cfg.traceFlusher.isSome then 0 else 1) +
                    (if cfg.metricFlusher.isSome then 0 else 1),
                pending := s.pending ++ [Ev.flushDone (FlushK.afterCb e r)] },
       none) := by
  rw [wrappedCallbackStep, applyResponseHook_eq, endSpanStep_safe cfg hs]

/-! ## Claim C1 -/

/-- C1: the claim states that the span-ending logic executes exactly once for
every invocation, whichever completion shapes fire. Evaluating the translated
wrapper at a classic callback-style handler (it synchronously invokes its
completion callback with (null, "R") and returns undefined, with no force
flushers configured and the schedule draining every continuation) shows the
span-ending sequence runs twice: the span is ended twice and the response
hook observes two completions, because the span-ended flag is only set in the
asynchronous flush continuation of the callback path, after the synchronous
return path has already checked it. The host callback still fires once. This
contradicts the code comment that whichever completion happens first wins and
the latter is ignored. -/
theorem C1_double_span_end :
    (invoke {} descC1 [0, 0]).1.span.endCount = 2 ∧
    (invoke {} descC1 [0, 0]).1.responseHookObservations =
      [(none, Val.vstr "R"), (none, Val.undef)] ∧
    (invoke {} descC1 [0, 0]).1.hostCbCalls = [(none, Val.vstr "R")] ∧
    (invoke {} descC1 [0, 0]).1.pending = [] := by
  decide

/-! ## Claim C3 -/

/-- C3: the first invocation of a fresh wrapper instance classifies as cold
start exactly when no provisioned-concurrency pre-warm signal is present and
the elapsed time since handler load does not exceed 10000 ms, and it marks
the instance as handled; every invocation on an instance already marked as
handled classifies as not cold start and stays marked. The classification
state is a pure function of the prior state, the environment signal and the
clock, so no span or hook error can affect it. -/
theorem C3_cold_start_classification :
    (∀ (env : Option String) (now t : Int),
      ((onRequest env now t initialColdStartState).requestIsColdStart = true ↔
        (env ≠ some "provisioned-concurrency" ∧
         now - t ≤ lambdaMaxInitInMilliseconds)) ∧
      (onRequest env now t initialColdStartState).requestHandledBefore = true) ∧
    (∀ (env : Option String) (now t : Int) (s : ColdStartState),
      s.requestHandledBefore = true →
      (onRequest env now t s).requestIsColdStart = false ∧
      (onRequest env now t s).requestHandledBefore = true) := by
  constructor
  · intro env now t
    by_cases henv : env = some "provisioned-concurrency" <;>
      simp [onRequest, initialColdStartState, henv, not_lt]
  · intro env now t s h
    simp [onRequest, h]

/-- Witness for C3 at concrete inputs: a second invocation (state already
marked handled) classifies as not cold start, and a first invocation 5000 ms
after load with no pre-warm signal classifies as cold start. -/
theorem C3_witness :
    (onRequest none 20000 0
      { requestHandledBefore := true, requestIsColdStart := false }).requestIsColdStart
        = false ∧
    (onRequest none 5000 0 initialColdStartState).requestIsColdStart = true :=
  ⟨(C3_cold_start_classification.2 none 20000 0
      { requestHandledBefore := true, requestIsColdStart := false } rfl).1,
   (C3_cold_start_classification.1 none 5000 0).1.mpr (by decide)⟩

/-! ## Claim C9 -/

/-- C9: the cloud account id attribute of the span is the fifth
colon-delimited segment of the function identifier when the identifier has
ARN shape (at least five colon-delimited segments, as the code tests), and is
absent otherwise; at the scenario identifier the attribute equals
123456789012. Stated through the attribute list the span factory builds. -/
theorem C9_account_id :
    (∀ (event : ApiGwEvent) (ctx : LambdaContextMeta) (cold : Bool),
      findAttr (createSpanAttributes event ctx cold) "cloud.account.id" =
        (extractAccountId ctx.invokedFunctionArn).map AttrVal.s) ∧
    (∀ arn : String,
      ((jsSplit arn ':').length < 5 → extractAccountId arn = none) ∧
      (5 ≤ (jsSplit arn ':').length →
        extractAccountId arn = (jsSplit arn ':').get? 4)) ∧
    extractAccountId "arn:aws:x:region:123456789012:function:f" =
      some "123456789012" := by
  refine ⟨?_, ?_, by decide⟩
  · intro event ctx cold
    cases hacc : extractAccountId ctx.invokedFunctionArn with
    | none =>
      cases hurl : extractFullUrl event <;>
        simp [createSpanAttributes, findAttr, hacc, hurl, List.find?]
    | some acc =>
      cases hurl : extractFullUrl event <;>
        simp [createSpanAttributes, findAttr, hacc, hurl, List.find?]
  · intro arn
    constructor
    · intro h
      simp [extractAccountId, Nat.not_le.mpr h]
    · intro h
      simp [extractAccountId, h]

/-- Witness for C9: the general segment characterization applied at the
scenario ARN and at an identifier without ARN shape. -/
theorem C9_witness :
    extractAccountId "arn:aws:x:region:123456789012:function:f" =
      (jsSplit "arn:aws:x:region:123456789012:function:f" ':').get? 4 ∧
    extractAccountId "not-an-arn" = none :=
  ⟨(C9_account_id.2.1 "arn:aws:x:region:123456789012:function:f").2 (by decide),
   (C9_account_id.2.1 "not-an-arn").1 (by decide)⟩

/-! ## Claim C6 -/

/-- C6 counterexample: the claim states the extracted context is returned as
parent exactly when it carries a valid remote span reference, and that an
extractor failure never propagates to the caller. A user-supplied extractor
returning a context whose span entry is an invalid (all-zero) span context
refutes the only-if direction: the code performs no validity check and
returns the extracted context, which differs from the root context. -/
theorem C6_counterexample :
    determineParent (Except.ok invalidRemoteCtx) = Except.ok invalidRemoteCtx ∧
    isSpanContextValid invalidRemoteSpanContext = false ∧
    invalidRemoteCtx ≠ ROOT_CONTEXT :=
  ⟨rfl, by decide, by decide⟩

/-- C6 amended: parent resolution returns the extracted context exactly when
it carries a span entry, with no validity or remoteness check (otherwise the
root context). A throwing extractor is caught and logged by the
safeExecuteInTheMiddle guard, but resolution then calls trace.getSpan on the
resulting undefined extracted context, which raises a TypeError that
propagates out of _determineParent to the caller: the extractor failure is
not contained. With the default extractor on an event carrying a valid
traceparent carrier, the resolved parent carries the carrier span context
and the created span adopts the carrier trace id. -/
theorem C6_parent_resolution_amended :
    (∀ c : OtelContext,
      determineParent (Except.ok c) =
        Except.ok (if (getSpanContextOf c).isSome then c else ROOT_CONTEXT)) ∧
    (∀ e : JsErr,
      determineParent (Except.error e) =
        Except.error getSpanUndefinedTypeError) ∧
    determineParent (Except.ok (defaultEventContextExtractor scenarioCarrierEvent)) =
      Except.ok { spanEntry := some scenarioCarrierSpanContext } ∧
    startSpanTraceId { spanEntry := some scenarioCarrierSpanContext }
      "4bf92f3577b34da6a3ce929d0e0e4736"
      = scenarioCarrierSpanContext.traceId := by
  refine ⟨?_, ?_, rfl, by decide⟩
  · intro c
    simp only [determineParent, safeExecuteInTheMiddle]
    by_cases h : (getSpanContextOf c).isSome = true <;> simp [h]
  · intro e
    simp [determineParent, safeExecuteInTheMiddle]

/-! ## Claim C4 -/

/-- C4 counterexample: the claim states the synchronously thrown error is
re-raised to the host after the span ends and the flush completes. With a
configured trace force flusher and a handler that throws "boom", the
immediate (synchronous) result of the invocation is already the rethrown
error while the flush continuation is still pending: the joined flush has not
settled when the error reaches the host, refuting the flush-completion part
of the claim (the discarded continuation also shows nothing awaits it). -/
theorem C4_counterexample :
    (invokeSync cfg4 (syncThrowDesc (JsErr.errObj "boom"))).2 = ImmediateResult.threw (JsErr.errObj "boom") ∧
    (invokeSync cfg4 (syncThrowDesc (JsErr.errObj "boom"))).1.traceFlushCalls = 1 ∧
    (invokeSync cfg4 (syncThrowDesc (JsErr.errObj "boom"))).1.pending = [Ev.flushDone FlushK.discard] := by
  decide

/-! ## Claim C5 -/

/-- C5 counterexample: the claim states that a flush capability that rejects
or throws on every call never fails the invocation, which still completes
with the handler result, and that every configured flusher is invoked. With
both force flushers throwing synchronously and a handler promise fulfilled
with "ok", the wrapper promise is rejected with the flush error instead of
fulfilling with the handler result, and the metric flusher is never
invoked. -/
theorem C5_counterexample :
    (invoke cfg5 (promiseDesc (Outcome.fulfilled (Val.vstr "ok"))) [0]).1.resultOutcome =
      some (Outcome.rejected (JsErr.errObj "flushfail")) ∧
    (invoke cfg5 (promiseDesc (Outcome.fulfilled (Val.vstr "ok"))) [0]).1.pending = [] ∧
    (invoke cfg5 (promiseDesc (Outcome.fulfilled (Val.vstr "ok"))) [0]).1.metricFlushCalls = 0 := by
  decide

/-! ## Claim C10 -/

/-- C10: for a non-streaming handler whose synchronous return value is not a
thenable, the wrapper immediately applies the response hook with no error and
the returned value, ends the span once, and returns the value unchanged,
driven by the plain synchronous return alone (the still-pending discarded
flush continuation is the only outstanding work, and the span-ended flag was
not set by the offered host callback). Flushers are assumed not to throw
synchronously. -/
theorem C10_sync_return_drives_completion (cfg : Cfg) (v : Val)
    (hs : cfg.flushersSafe = true) :
    (invokeSync cfg (syncRetDesc v)).2 = ImmediateResult.retVal v ∧
    (invokeSync cfg (syncRetDesc v)).1.responseHookObservations = [(none, v)] ∧
    (invokeSync cfg (syncRetDesc v)).1.span.endCount = 1 ∧
    (invokeSync cfg (syncRetDesc v)).1.span.exceptions = [] ∧
    (invokeSync cfg (syncRetDesc v)).1.span.statusMessages = [] ∧
    (invokeSync cfg (syncRetDesc v)).1.pending = [Ev.flushDone FlushK.discard] ∧
    (invokeSync cfg (syncRetDesc v)).1.spanEnded = false := by
  simp [invokeSync, syncRetDesc, handleSyncReturn, applyRequestHook_eq,
    applyResponseHook_eq, endSpanStep_safe cfg hs, recordErrOnSpan, errMessageOf]

/-- Witness for C10 at a handler returning undefined with no flushers
configured. -/
theorem C10_witness :
    (invokeSync {} (syncRetDesc Val.undef)).2 =
      ImmediateResult.retVal Val.undef ∧
    (invokeSync {} (syncRetDesc Val.undef)).1.span.endCount = 1 :=
  ⟨(C10_sync_return_drives_completion {} Val.undef (by decide)).1,
   (C10_sync_return_drives_completion {} Val.undef (by decide)).2.2.1⟩

/-! ## Claim C4 (amended) -/

/-- C4 amended: for a handler that throws synchronously before offering
either completion shape, the span receives the exception record and an ERROR
status carrying the thrown message, the response hook runs with the error
and no result, each configured force flusher is invoked, and the same error
is re-raised to the host unchanged after the span ends — but without waiting
for the flush to complete: the joined flush continuation is still pending at
the moment of the rethrow. Flushers are assumed not to throw synchronously
(a synchronously thrown flush error would replace the handler error). -/
theorem C4_sync_throw_amended (cfg : Cfg) (e : JsErr) (m : String)
    (hs : cfg.flushersSafe = true) (ht : e.truthy = true)
    (hm : errMessageOf (some e) = some m) (hm2 : m ≠ "") :
    (invokeSync cfg (syncThrowDesc e)).2 = ImmediateResult.threw e ∧
    (invokeSync cfg (syncThrowDesc e)).1.span.exceptions = [e] ∧
    (invokeSync cfg (syncThrowDesc e)).1.span.statusMessages = [m] ∧
    (invokeSync cfg (syncThrowDesc e)).1.span.endCount = 1 ∧
    (invokeSync cfg (syncThrowDesc e)).1.responseHookObservations =
      [(some e, Val.undef)] ∧
    (invokeSync cfg (syncThrowDesc e)).1.traceFlushCalls =
      (if cfg.traceFlusher.isSome then 1 else 0) ∧
    (invokeSync cfg (syncThrowDesc e)).1.metricFlushCalls =
      (if cfg.metricFlusher.isSome then 1 else 0) ∧
    (invokeSync cfg (syncThrowDesc e)).1.pending = [Ev.flushDone FlushK.discard] := by
  simp [invokeSync, syncThrowDesc, handleSyncThrow, applyRequestHook_eq,
    applyResponseHook_eq, endSpanStep_safe cfg hs, recordErrOnSpan, ht, hm, hm2]

/-- Witness for C4 at the scenario input: error object with message boom and
a configured resolving trace flusher. -/
theorem C4_witness :
    (invokeSync cfg4 (syncThrowDesc (JsErr.errObj "boom"))).2 =
      ImmediateResult.threw (JsErr.errObj "boom") ∧
    (invokeSync cfg4 (syncThrowDesc (JsErr.errObj "boom"))).1.span.statusMessages =
      ["boom"] :=
  ⟨(C4_sync_throw_amended cfg4 (JsErr.errObj "boom") "boom" (by decide) (by decide)
      rfl (by decide)).1,
   (C4_sync_throw_amended cfg4 (JsErr.errObj "boom") "boom" (by decide) (by decide)
      rfl (by decide)).2.2.1⟩

/-! ## Claim C8 -/

theorem urlQueryFoldFalse (qs : List (String × String)) (acc : String) :
    (qs.foldl
      (fun (a : String × Bool) kv =>
        (a.1 ++ (if a.2 then "?" else "&") ++
          encodeURIComponent kv.1 ++ "=" ++ encodeURIComponent kv.2, false))
      (acc, false)).1 = acc ++ ampJoin qs := by
  induction qs generalizing acc with
  | nil => simp [ampJoin]
  | cons kv t ih =>
    simp only [List.foldl_cons, if_neg, Bool.false_eq_true, not_false_iff]
    rw [ih]
    simp [ampJoin, String.append_assoc]

theorem urlQueryFold (qs : List (String × String)) (acc : String) :
    (qs.foldl
      (fun (a : String × Bool) kv =>
        (a.1 ++ (if a.2 then "?" else "&") ++
          encodeURIComponent kv.1 ++ "=" ++ encodeURIComponent kv.2, false))
      (acc, true)).1 = acc ++ specQueryString qs := by
  cases qs with
  | nil => simp [specQueryString]
  | cons kv t =>
    simp only [List.foldl_cons, if_pos]
    rw [urlQueryFoldFalse]
    simp [specQueryString, String.append_assoc]

/-- C8: the span full-URL attribute is present exactly when the event carries
a headers object with truthy host and forwarded-proto headers and a truthy
path (or rawPath); when the required fields are present (here without and
with a forwarded port) the value is scheme://host[:port]path followed by the
query pairs, each percent-encoded as key=value, the first preceded by a
question mark and the rest joined with ampersands; and at the scenario event
the attribute equals https://example.com/test?a=1&b=2. -/
theorem C8_full_url :
    (∀ e : ApiGwEvent, (extractFullUrl e).isSome =
      (e.headers.isSome &&
       (jsTruthyStr (findAny e "x-forwarded-proto" "X-Forwarded-Proto") &&
        jsTruthyStr (findAny e "host" "Host") &&
        (jsTruthyStr e.path || jsTruthyStr e.rawPath)))) ∧
    (∀ (e : ApiGwEvent) (h pr pa : String) (qs : List (String × String)),
      e.headers.isSome = true →
      findAny e "host" "Host" = some h → h ≠ "" →
      findAny e "x-forwarded-proto" "X-Forwarded-Proto" = some pr → pr ≠ "" →
      findAny e "x-forwarded-port" "X-Forwarded-Port" = none →
      e.path = some pa → pa ≠ "" →
      e.queryStringParameters = some qs →
      extractFullUrl e = some (pr ++ "://" ++ h ++ pa ++ specQueryString qs)) ∧
    (∀ (e : ApiGwEvent) (h pr pt pa : String) (qs : List (String × String)),
      e.headers.isSome = true →
      findAny e "host" "Host" = some h → h ≠ "" →
      findAny e "x-forwarded-proto" "X-Forwarded-Proto" = some pr → pr ≠ "" →
      findAny e "x-forwarded-port" "X-Forwarded-Port" = some pt → pt ≠ "" →
      e.path = some pa → pa ≠ "" →
      e.queryStringParameters = some qs →
      extractFullUrl e =
        some (pr ++ "://" ++ h ++ ":" ++ pt ++ pa ++ specQueryString qs)) ∧
    (∀ (e : ApiGwEvent) (ctx : LambdaContextMeta) (cold : Bool),
      findAttr (createSpanAttributes e ctx cold) "url.full" =
        (extractFullUrl e).map AttrVal.s) ∧
    extractFullUrl urlScenarioEvent = some "https://example.com/test?a=1&b=2" := by
  refine ⟨?_, ?_, ?_, ?_, by decide⟩
  · intro e
    cases hh : e.headers with
    | none => simp [extractFullUrl, findAny, hh]
    | some hs =>
      cases hc : (jsTruthyStr (findAny e "x-forwarded-proto" "X-Forwarded-Proto") &&
          jsTruthyStr (findAny e "host" "Host") &&
          (jsTruthyStr e.path || jsTruthyStr e.rawPath)) with
      | false => simp [extractFullUrl, hh, hc]
      | true => simp [extractFullUrl, hh, hc]
  · intro e h pr pa qs hh hhost hh1 hproto hp1 hport hpath hpa1 hqs
    cases hh2 : e.headers with
    | none => rw [hh2] at hh; exact absurd hh (by simp)
    | some hdrs =>
      simp [extractFullUrl, hh2, hhost, hproto, hport, hpath, hqs,
        jsTruthyStr, hh1, hp1, hpa1]
      rw [urlQueryFold]
  · intro e h pr pt pa qs hh hhost hh1 hproto hp1 hport hpt1 hpath hpa1 hqs
    cases hh2 : e.headers with
    | none => rw [hh2] at hh; exact absurd hh (by simp)
    | some hdrs =>
      simp [extractFullUrl, hh2, hhost, hproto, hport, hpath, hqs,
        jsTruthyStr, hh1, hp1, hpt1, hpa1]
      rw [urlQueryFold]
  · intro e ctx cold
    cases hacc : extractAccountId ctx.invokedFunctionArn with
    | none =>
      cases hurl : extractFullUrl e <;>
        simp [createSpanAttributes, findAttr, hacc, hurl, List.find?]
    | some acc =>
      cases hurl : extractFullUrl e <;>
        simp [createSpanAttributes, findAttr, hacc, hurl, List.find?]

/-- Witness for C8: the construction applied at the scenario event, plus the
attribute placement at the scenario event. -/
theorem C8_witness :
    extractFullUrl urlScenarioEvent =
      some ("https" ++ "://" ++ "example.com" ++ "/test" ++
        specQueryString [("a", "1"), ("b", "2")]) :=
  C8_full_url.2.1 urlScenarioEvent "example.com" "https" "/test"
    [("a", "1"), ("b", "2")] (by decide) (by decide) (by decide) (by decide)
    (by decide) (by decide) (by decide) (by decide) (by decide)

/-! ## Scheduler helper lemmas -/

theorem step_of_empty (cfg : Cfg) (desc : HandlerDesc) (s : St) (i : Nat)
    (h : s.pending = []) : step cfg desc s i = s := by
  simp [step, h]

theorem step_singleton (cfg : Cfg) (desc : HandlerDesc) (s : St) (ev : Ev)
    (h : s.pending = [ev]) (i : Nat) :
    step cfg desc s i = execEvent cfg desc { s with pending := [] } ev := by
  simp [step, h, Nat.mod_one, List.eraseIdx]

theorem runSched_cons (cfg : Cfg) (desc : HandlerDesc) (s : St) (i : Nat)
    (rest : List Nat) :
    runSched cfg desc s (i :: rest) = runSched cfg desc (step cfg desc s i) rest := rfl

/-! ## Claim C5 (amended) -/

theorem cfgFlush_safe (tb mb : FlushBeh) (ht : tb.throwsSynchronously = false)
    (hm : mb.throwsSynchronously = false) : (cfgFlush tb mb).flushersSafe = true := by
  simp [cfgFlush, Cfg.flushersSafe, ht, hm]

theorem c5_init (tb mb : FlushBeh) (o : Outcome) :
    invokeSync (cfgFlush tb mb) (promiseDesc o) =
      ({ pending := [Ev.promiseSettled] }, ImmediateResult.retPromise) := by
  simp [invokeSync, promiseDesc, cfgFlush, applyRequestHook_eq, hookThrows]

theorem c5_step1 (tb mb : FlushBeh) (hsafe : (cfgFlush tb mb).flushersSafe = true)
    (o : Outcome) (i : Nat) :
    step (cfgFlush tb mb) (promiseDesc o) { pending := [Ev.promiseSettled] } i =
      c5mid o := by
  rw [step_singleton (cfgFlush tb mb) (promiseDesc o) _ Ev.promiseSettled rfl i]
  cases o with
  | fulfilled v =>
    simp only [execEvent, promiseSettledStep, promiseDesc]
    rw [applyResponseHook_eq, endSpanStep_safe _ hsafe]
    simp [c5mid, flushObs, matchingFlushK, cfgFlush, hookThrows]
  | rejected e =>
    simp only [execEvent, promiseSettledStep, promiseDesc]
    rw [applyResponseHook_eq, endSpanStep_safe _ hsafe]
    simp [c5mid, flushObs, matchingFlushK, cfgFlush, hookThrows]

theorem c5_step2 (tb mb : FlushBeh) (o : Outcome) (i : Nat) :
    step (cfgFlush tb mb) (promiseDesc o) (c5mid o) i = c5fin o := by
  rw [step_singleton (cfgFlush tb mb) (promiseDesc o) _ (Ev.flushDone (matchingFlushK o)) rfl i]
  cases o with
  | fulfilled v => simp [execEvent, runFlushK, matchingFlushK, c5mid, c5fin]
  | rejected e => simp [execEvent, runFlushK, matchingFlushK, c5mid, c5fin]

theorem reachC5_step (tb mb : FlushBeh) (ht : tb.throwsSynchronously = false)
    (hm : mb.throwsSynchronously = false) (o : Outcome) (s : St)
    (h : ReachC5 o s) (i : Nat) :
    ReachC5 o (step (cfgFlush tb mb) (promiseDesc o) s i) := by
  rcases h with h1 | h2 | h3
  · right; left
    rw [h1, c5_step1 tb mb (cfgFlush_safe tb mb ht hm) o i]
  · right; right
    rw [h2, c5_step2 tb mb o i]
  · right; right
    rw [h3, step_of_empty _ _ _ _ (by simp [c5fin])]

theorem reachC5_run (tb mb : FlushBeh) (ht : tb.throwsSynchronously = false)
    (hm : mb.throwsSynchronously = false) (o : Outcome) (s : St)
    (h : ReachC5 o s) (sched : List Nat) :
    ReachC5 o (runSched (cfgFlush tb mb) (promiseDesc o) s sched) := by
  induction sched generalizing s with
  | nil => exact h
  | cons i rest ih =>
    rw [runSched_cons]
    exact ih _ (reachC5_step tb mb ht hm o s h i)

theorem reachC5_invoke (tb mb : FlushBeh) (ht : tb.throwsSynchronously = false)
    (hm : mb.throwsSynchronously = false) (o : Outcome) (sched : List Nat) :
    ReachC5 o (invoke (cfgFlush tb mb) (promiseDesc o) sched).1 := by
  have hinit := c5_init tb mb o
  unfold invoke
  rw [hinit]
  exact reachC5_run tb mb ht hm o _ (Or.inl rfl) sched

/-- C5 amended: with trace and metric force-flush capabilities that settle
as promises (resolving or rejecting, never throwing synchronously), every
invocation of a promise-returning handler invokes each configured flusher
exactly once before the wrapper result settles, the wrapper result is
signaled only after the joined flush settles (a drained schedule yields the
handler settlement; until the joined flush settles the result is still
unsignaled, as the one-step schedule shows), and the wrapper result is never
anything other than the handler settlement — in particular rejecting
flushers never fail the invocation. A pipeline without force flush is logged
as a diagnostic only (two diagnostics when both are missing), the invocation
still completing with the handler result. -/
theorem C5_flush_amended :
    (∀ (tb mb : FlushBeh) (o : Outcome) (sched : List Nat),
      tb.throwsSynchronously = false → mb.throwsSynchronously = false →
      ((invoke (cfgFlush tb mb) (promiseDesc o) sched).1.resultOutcome = some o →
        (invoke (cfgFlush tb mb) (promiseDesc o) sched).1.traceFlushCalls = 1 ∧
        (invoke (cfgFlush tb mb) (promiseDesc o) sched).1.metricFlushCalls = 1) ∧
      ((invoke (cfgFlush tb mb) (promiseDesc o) sched).1.pending = [] →
        (invoke (cfgFlush tb mb) (promiseDesc o) sched).1.resultOutcome = some o) ∧
      ((invoke (cfgFlush tb mb) (promiseDesc o) sched).1.resultOutcome = none ∨
       (invoke (cfgFlush tb mb) (promiseDesc o) sched).1.resultOutcome = some o) ∧
      ((invoke (cfgFlush tb mb) (promiseDesc o) [0]).1.resultOutcome = none ∧
       (invoke (cfgFlush tb mb) (promiseDesc o) [0]).1.traceFlushCalls = 1 ∧
       (invoke (cfgFlush tb mb) (promiseDesc o) [0]).1.metricFlushCalls = 1)) ∧
    ((invoke {} (promiseDesc (Outcome.fulfilled Val.undef)) [0, 0]).1.noFlusherDiag = 2 ∧
     (invoke {} (promiseDesc (Outcome.fulfilled Val.undef)) [0, 0]).1.resultOutcome =
       some (Outcome.fulfilled Val.undef)) := by
  refine ⟨?_, by decide, by decide⟩
  intro tb mb o sched ht hm
  have hreach := reachC5_invoke tb mb ht hm o sched
  have hone : (invoke (cfgFlush tb mb) (promiseDesc o) [0]).1 = c5mid o := by
    simp only [invoke, c5_init tb mb o]
    rw [runSched_cons, c5_step1 tb mb (cfgFlush_safe tb mb ht hm) o 0]
    rfl
  refine ⟨?_, ?_, ?_, ?_⟩
  · intro hout
    rcases hreach with h | h | h <;> rw [h] at hout ⊢ <;>
      simp_all [c5mid, c5fin]
  · intro hpend
    rcases hreach with h | h | h <;> rw [h] at hpend ⊢ <;>
      simp_all [c5mid, c5fin]
  · rcases hreach with h | h | h <;> rw [h] <;> simp [c5mid, c5fin]
  · rw [hone]
    simp [c5mid]

/-- Witness for C5 amended: both flushers reject on every call, the handler
promise fulfills with "ok", the schedule drains; the invocation still
completes with the handler result and both flushers were invoked. -/
theorem C5_witness :
    (invoke (cfgFlush (FlushBeh.rejects (JsErr.errObj "t"))
        (FlushBeh.rejects (JsErr.errObj "m")))
      (promiseDesc (Outcome.fulfilled (Val.vstr "ok"))) [0, 0]).1.resultOutcome =
      some (Outcome.fulfilled (Val.vstr "ok")) :=
  ((C5_flush_amended.1 (FlushBeh.rejects (JsErr.errObj "t"))
      (FlushBeh.rejects (JsErr.errObj "m"))
      (Outcome.fulfilled (Val.vstr "ok")) [0, 0] (by decide) (by decide)).2.1
    (by decide))

/-! ## Invariant machinery for claim C2 -/

theorem mem_eraseIdx_of_ne {α : Type} :
    ∀ (l : List α) (j : Fin l.length) (a : α), a ∈ l → a ≠ l.get j →
      a ∈ l.eraseIdx j.val
  | x :: t, ⟨0, _⟩, a, ha, hne => by
    simp only [List.get] at hne
    simp only [List.eraseIdx]
    rcases List.mem_cons.mp ha with h | h
    · exact absurd h hne
    · exact h
  | x :: t, ⟨Nat.succ jv, hj⟩, a, ha, hne => by
    simp only [List.get] at hne
    simp only [List.eraseIdx]
    rcases List.mem_cons.mp ha with h | h
    · exact List.mem_cons.mpr (Or.inl h)
    · exact List.mem_cons.mpr
        (Or.inr (mem_eraseIdx_of_ne t ⟨jv, Nat.lt_of_succ_lt_succ hj⟩ a h hne))

theorem step_eq (cfg : Cfg) (desc : HandlerDesc) (s : St) (i : Nat)
    (h : s.pending.length ≠ 0) :
    step cfg desc s i =
      execEvent cfg desc
        { s with pending := s.pending.eraseIdx (i % s.pending.length) }
        (s.pending.get ⟨i % s.pending.length,
          Nat.mod_lt _ (Nat.pos_of_ne_zero h)⟩) := by
  simp [step, h]

theorem promiseSettledStep_ended (cfg : Cfg) (desc : HandlerDesc) (o : Outcome)
    (hret : desc.ret = RetKind.retPromise o) (s : St) (hsp : s.spanEnded = true) :
    promiseSettledStep cfg desc s = { s with resultOutcome := some o } := by
  cases o <;> simp [promiseSettledStep, hret, hsp]

theorem promiseSettledStep_live (cfg : Cfg) (hs : cfg.flushersSafe = true)
    (desc : HandlerDesc) (o : Outcome) (hret : desc.ret = RetKind.retPromise o)
    (s : St) (hsp : s.spanEnded = false) :
    promiseSettledStep cfg desc s =
      { s with span := recordErrOnSpan s.span (flushObs o).1,
               responseHookObservations :=
                 s.responseHookObservations ++ [flushObs o],
               hookErrorsLogged :=
                 s.hookErrorsLogged + (if hookThrows cfg.responseHook then 1 else 0),
               traceFlushCalls :=
                 s.traceFlushCalls + (if cfg.traceFlusher.isSome then 1 else 0),
               metricFlushCalls :=
                 s.metricFlushCalls + (if cfg.metricFlusher.isSome then 1 else 0),
               noFlusherDiag :=
                 s.noFlusherDiag + (if cfg.traceFlusher.isSome then 0 else 1) +
                   (if cfg.metricFlusher.isSome then 0 else 1),
               pending := s.pending ++ [Ev.flushDone (matchingFlushK o)] } := by
  cases o with
  | fulfilled v =>
    simp only [promiseSettledStep, hret]
    rw [if_neg (by simp [hsp]), applyResponseHook_eq, endSpanStep_safe cfg hs]
    simp [flushObs, matchingFlushK]
  | rejected e =>
    simp only [promiseSettledStep, hret]
    rw [if_neg (by simp [hsp]), applyResponseHook_eq, endSpanStep_safe cfg hs]
    simp [flushObs, matchingFlushK]

theorem cbFiresStep_none (cfg : Cfg) (desc : HandlerDesc)
    (hcb : desc.asyncCb = none) (s : St) : cbFiresStep cfg desc s = s := by
  simp [cbFiresStep, hcb]

theorem cbFiresStep_safe (cfg : Cfg) (hs : cfg.flushersSafe = true)
    (desc : HandlerDesc) (a : Option JsErr × Val) (hcb : desc.asyncCb = some a)
    (s : St) :
    cbFiresStep cfg desc s =
      { s with span := recordErrOnSpan s.span a.1,
               responseHookObservations :=
                 s.responseHookObservations ++ [(a.1, a.2)],
               hookErrorsLogged :=
                 s.hookErrorsLogged + (if hookThrows cfg.responseHook then 1 else 0),
               traceFlushCalls :=
                 s.traceFlushCalls + (if cfg.traceFlusher.isSome then 1 else 0),
               metricFlushCalls :=
                 s.metricFlushCalls + (if cfg.metricFlusher.isSome then 1 else 0),
               noFlusherDiag :=
                 s.noFlusherDiag + (if cfg.traceFlusher.isSome then 0 else 1) +
                   (if cfg.metricFlusher.isSome then 0 else 1),
               pending :=
                 s.pending ++ [Ev.flushDone (FlushK.afterCb a.1 a.2)] } := by
  simp only [cbFiresStep, hcb]
  rw [wrappedCallbackStep_safe cfg hs]

theorem promiseSettledStep_noProm (cfg : Cfg) (desc : HandlerDesc) (s : St)
    (h : ∀ o : Outcome, desc.ret ≠ RetKind.retPromise o) :
    promiseSettledStep cfg desc s = s := by
  cases hr : desc.ret with
  | throwSync e => simp [promiseSettledStep, hr]
  | retValue v => simp [promiseSettledStep, hr]
  | retPromise o => exact absurd hr (h o)

theorem inv_step_core (cfg : Cfg) (hs : cfg.flushersSafe = true)
    (desc : HandlerDesc) (s : St) (hInv : Inv desc s) (j : Fin s.pending.length) :
    Inv desc (execEvent cfg desc { s with pending := s.pending.eraseIdx j.val }
      (s.pending.get j)) := by
  have hevOk : descEventOk desc (s.pending.get j) :=
    hInv.events _ (s.pending.get_mem _ _)
  have hkeep : ∀ x : Ev, x ∈ s.pending → x ≠ s.pending.get j →
      x ∈ s.pending.eraseIdx j.val :=
    fun x hx hne => mem_eraseIdx_of_ne _ _ _ hx hne
  have hback : ∀ x : Ev, x ∈ s.pending.eraseIdx j.val → x ∈ s.pending :=
    fun x hx => (List.eraseIdx_sublist s.pending j.val).mem hx
  cases hget : s.pending.get j with
  | promiseSettled =>
    rw [hget] at hevOk hkeep
    simp only [execEvent]
    rcases hret : desc.ret with e0 | v0 | o0
    · rw [promiseSettledStep_noProm cfg desc _ (by simp [hret])]
      refine ⟨fun x hx => hInv.events x (hback x hx),
              fun o ho => hInv.outcome o ho, ?_, ?_, ?_,
              fun a ha => hInv.calls a ha⟩
      · intro o ho
        rw [hret] at ho
        simp at ho
      · intro a ha
        rcases hInv.syncCbProg a ha with h | h
        · exact Or.inl h
        · exact Or.inr (hkeep _ h (by simp))
      · intro a ha
        rcases hInv.asyncCbProg a ha with h | h | h
        · exact Or.inl h
        · exact Or.inr (Or.inl (hkeep _ h (by simp)))
        · exact Or.inr (Or.inr (hkeep _ h (by simp)))
    · rw [promiseSettledStep_noProm cfg desc _ (by simp [hret])]
      refine ⟨fun x hx => hInv.events x (hback x hx),
              fun o ho => hInv.outcome o ho, ?_, ?_, ?_,
              fun a ha => hInv.calls a ha⟩
      · intro o ho
        rw [hret] at ho
        simp at ho
      · intro a ha
        rcases hInv.syncCbProg a ha with h | h
        · exact Or.inl h
        · exact Or.inr (hkeep _ h (by simp))
      · intro a ha
        rcases hInv.asyncCbProg a ha with h | h | h
        · exact Or.inl h
        · exact Or.inr (Or.inl (hkeep _ h (by simp)))
        · exact Or.inr (Or.inr (hkeep _ h (by simp)))
    · by_cases hsp : s.spanEnded = true
      · rw [promiseSettledStep_ended cfg desc o0 hret
          { s with pending := s.pending.eraseIdx j.val } hsp]
        refine ⟨fun x hx => hInv.events x (hback x hx), ?_, ?_, ?_, ?_,
                fun a ha => hInv.calls a ha⟩
        · intro o ho
          have h3 : some o0 = some o := ho
          injection h3 with h4
          rw [← h4]
          exact hret
        · intro o ho
          have h2 := hret.symm.trans ho
          injection h2 with h3
          subst h3
          exact Or.inl rfl
        · intro a ha
          rcases hInv.syncCbProg a ha with h | h
          · exact Or.inl h
          · exact Or.inr (hkeep _ h (by simp))
        · intro a ha
          rcases hInv.asyncCbProg a ha with h | h | h
          · exact Or.inl h
          · exact Or.inr (Or.inl (hkeep _ h (by simp)))
          · exact Or.inr (Or.inr (hkeep _ h (by simp)))
      · have hsp2 : s.spanEnded = false := by simpa using hsp
        rw [promiseSettledStep_live cfg hs desc o0 hret
          { s with pending := s.pending.eraseIdx j.val } hsp2]
        refine ⟨?_, fun o ho => hInv.outcome o ho, ?_, ?_, ?_,
                fun a ha => hInv.calls a ha⟩
        · intro x hx
          rcases List.mem_append.mp hx with h | h
          · exact hInv.events x (hback x h)
          · rw [List.mem_singleton] at h
            subst h
            cases o0 with
            | fulfilled v => simpa [descEventOk, matchingFlushK] using hret
            | rejected e => simpa [descEventOk, matchingFlushK] using hret
        · intro o ho
          have h2 := hret.symm.trans ho
          injection h2 with h3
          subst h3
          exact Or.inr (Or.inr (List.mem_append.mpr
            (Or.inr (List.mem_singleton.mpr rfl))))
        · intro a ha
          rcases hInv.syncCbProg a ha with h | h
          · exact Or.inl h
          · exact Or.inr (List.mem_append.mpr (Or.inl (hkeep _ h (by simp))))
        · intro a ha
          rcases hInv.asyncCbProg a ha with h | h | h
          · exact Or.inl h
          · exact Or.inr (Or.inl (List.mem_append.mpr (Or.inl (hkeep _ h (by simp)))))
          · exact Or.inr (Or.inr (List.mem_append.mpr (Or.inl (hkeep _ h (by simp)))))
  | cbFires =>
    rw [hget] at hevOk hkeep
    simp only [execEvent]
    cases hacb : desc.asyncCb with
    | none =>
      rw [cbFiresStep_none cfg desc hacb]
      refine ⟨fun x hx => hInv.events x (hback x hx),
              fun o ho => hInv.outcome o ho, ?_, ?_, ?_,
              fun a ha => hInv.calls a ha⟩
      · intro o ho
        rcases hInv.progress o ho with h | h | h
        · exact Or.inl h
        · exact Or.inr (Or.inl (hkeep _ h (by simp)))
        · exact Or.inr (Or.inr (hkeep _ h (by cases o <;> simp [matchingFlushK])))
      · intro a ha
        rcases hInv.syncCbProg a ha with h | h
        · exact Or.inl h
        · exact Or.inr (hkeep _ h (by simp))
      · intro a ha
        rw [hacb] at ha
        simp at ha
    | some a0 =>
      rw [cbFiresStep_safe cfg hs desc a0 hacb]
      refine ⟨?_, fun o ho => hInv.outcome o ho, ?_, ?_, ?_,
              fun a ha => hInv.calls a ha⟩
      · intro x hx
        rcases List.mem_append.mp hx with h | h
        · exact hInv.events x (hback x h)
        · rw [List.mem_singleton] at h
          subst h
          exact Or.inr (by rw [hacb])
      · intro o ho
        rcases hInv.progress o ho with h | h | h
        · exact Or.inl h
        · exact Or.inr (Or.inl (List.mem_append.mpr (Or.inl (hkeep _ h (by simp)))))
        · exact Or.inr (Or.inr (List.mem_append.mpr (Or.inl (hkeep _ h
            (by cases o <;> simp [matchingFlushK])))))
      · intro a ha
        rcases hInv.syncCbProg a ha with h | h
        · exact Or.inl h
        · exact Or.inr (List.mem_append.mpr (Or.inl (hkeep _ h (by simp))))
      · intro a ha
        have h2 := hacb.symm.trans ha
        injection h2 with h3
        subst h3
        exact Or.inr (Or.inr (List.mem_append.mpr
          (Or.inr (List.mem_singleton.mpr rfl))))
  | flushDone k =>
    rw [hget] at hevOk hkeep
    simp only [execEvent]
    cases k with
    | discard =>
      simp only [runFlushK]
      refine ⟨fun x hx => hInv.events x (hback x hx),
              fun o ho => hInv.outcome o ho, ?_, ?_, ?_,
              fun a ha => hInv.calls a ha⟩
      · intro o ho
        rcases hInv.progress o ho with h | h | h
        · exact Or.inl h
        · exact Or.inr (Or.inl (hkeep _ h (by simp)))
        · exact Or.inr (Or.inr (hkeep _ h (by cases o <;> simp [matchingFlushK])))
      · intro a ha
        rcases hInv.syncCbProg a ha with h | h
        · exact Or.inl h
        · exact Or.inr (hkeep _ h (by simp))
      · intro a ha
        rcases hInv.asyncCbProg a ha with h | h | h
        · exact Or.inl h
        · exact Or.inr (Or.inl (hkeep _ h (by simp)))
        · exact Or.inr (Or.inr (hkeep _ h (by simp)))
    | afterCb ce cr =>
      simp only [runFlushK]
      refine ⟨fun x hx => hInv.events x (hback x hx),
              fun o ho => hInv.outcome o ho, ?_, ?_, ?_, ?_⟩
      · intro o ho
        rcases hInv.progress o ho with h | h | h
        · exact Or.inl h
        · exact Or.inr (Or.inl (hkeep _ h (by simp)))
        · exact Or.inr (Or.inr (hkeep _ h (by cases o <;> simp [matchingFlushK])))
      · intro a ha
        rcases hInv.syncCbProg a ha with h | h
        · exact Or.inl (List.mem_append.mpr (Or.inl h))
        · by_cases hxe :
            Ev.flushDone (FlushK.afterCb a.1 a.2) = Ev.flushDone (FlushK.afterCb ce cr)
          · obtain ⟨a1, a2⟩ := a
            simp only [Ev.flushDone.injEq, FlushK.afterCb.injEq] at hxe
            obtain ⟨h1, h2⟩ := hxe
            subst h1
            subst h2
            exact Or.inl (List.mem_append.mpr
              (Or.inr (List.mem_singleton.mpr rfl)))
          · exact Or.inr (hkeep _ h hxe)
      · intro a ha
        rcases hInv.asyncCbProg a ha with h | h | h
        · exact Or.inl (List.mem_append.mpr (Or.inl h))
        · exact Or.inr (Or.inl (hkeep _ h (by simp)))
        · by_cases hxe :
            Ev.flushDone (FlushK.afterCb a.1 a.2) = Ev.flushDone (FlushK.afterCb ce cr)
          · obtain ⟨a1, a2⟩ := a
            simp only [Ev.flushDone.injEq, FlushK.afterCb.injEq] at hxe
            obtain ⟨h1, h2⟩ := hxe
            subst h1
            subst h2
            exact Or.inl (List.mem_append.mpr
              (Or.inr (List.mem_singleton.mpr rfl)))
          · exact Or.inr (Or.inr (hkeep _ h hxe))
      · intro a ha
        rcases List.mem_append.mp ha with h | h
        · exact hInv.calls a h
        · rw [List.mem_singleton] at h
          subst h
          exact hevOk
    | resolveWith v =>
      simp only [runFlushK]
      have hret : desc.ret = RetKind.retPromise (Outcome.fulfilled v) := hevOk
      refine ⟨fun x hx => hInv.events x (hback x hx), ?_, ?_, ?_, ?_,
              fun a ha => hInv.calls a ha⟩
      · intro o ho
        have h3 : some (Outcome.fulfilled v) = some o := ho
        injection h3 with h4
        rw [← h4]
        exact hret
      · intro o ho
        have h2 := hret.symm.trans ho
        injection h2 with h3
        subst h3
        exact Or.inl rfl
      · intro a ha
        rcases hInv.syncCbProg a ha with h | h
        · exact Or.inl h
        · exact Or.inr (hkeep _ h (by simp))
      · intro a ha
        rcases hInv.asyncCbProg a ha with h | h | h
        · exact Or.inl h
        · exact Or.inr (Or.inl (hkeep _ h (by simp)))
        · exact Or.inr (Or.inr (hkeep _ h (by simp)))
    | rejectWith e =>
      simp only [runFlushK]
      have hret : desc.ret = RetKind.retPromise (Outcome.rejected e) := hevOk
      refine ⟨fun x hx => hInv.events x (hback x hx), ?_, ?_, ?_, ?_,
              fun a ha => hInv.calls a ha⟩
      · intro o ho
        have h3 : some (Outcome.rejected e) = some o := ho
        injection h3 with h4
        rw [← h4]
        exact hret
      · intro o ho
        have h2 := hret.symm.trans ho
        injection h2 with h3
        subst h3
        exact Or.inl rfl
      · intro a ha
        rcases hInv.syncCbProg a ha with h | h
        · exact Or.inl h
        · exact Or.inr (hkeep _ h (by simp))
      · intro a ha
        rcases hInv.asyncCbProg a ha with h | h | h
        · exact Or.inl h
        · exact Or.inr (Or.inl (hkeep _ h (by simp)))
        · exact Or.inr (Or.inr (hkeep _ h (by simp)))

theorem inv_step (cfg : Cfg) (hs : cfg.flushersSafe = true) (desc : HandlerDesc)
    (s : St) (hInv : Inv desc s) (i : Nat) : Inv desc (step cfg desc s i) := by
  by_cases h0 : s.pending.length = 0
  · rw [step_of_empty cfg desc s i (List.length_eq_zero.mp h0)]
    exact hInv
  · rw [step_eq cfg desc s i h0]
    exact inv_step_core cfg hs desc s hInv _

theorem inv_runSched (cfg : Cfg) (hs : cfg.flushersSafe = true)
    (desc : HandlerDesc) (s : St) (hInv : Inv desc s) (sched : List Nat) :
    Inv desc (runSched cfg desc s sched) := by
  induction sched generalizing s with
  | nil => exact hInv
  | cons i rest ih =>
    rw [runSched_cons]
    exact ih _ (inv_step cfg hs desc s hInv i)

theorem inv_invokeSync (cfg : Cfg) (hs : cfg.flushersSafe = true)
    (desc : HandlerDesc) : Inv desc (invokeSync cfg desc).1 := by
  obtain ⟨scb, acb, ret⟩ := desc
  cases scb <;> cases acb <;> cases ret <;>
    refine ⟨?_, ?_, ?_, ?_, ?_, ?_⟩ <;>
      simp [invokeSync, handleSyncThrow, handleSyncReturn, applyRequestHook_eq,
        applyResponseHook_eq, endSpanStep_safe cfg hs,
        wrappedCallbackStep_safe cfg hs, descEventOk, matchingFlushK]

theorem invokeSync_imm (cfg : Cfg) (hs : cfg.flushersSafe = true)
    (desc : HandlerDesc) :
    (invokeSync cfg desc).2 =
      (match desc.ret with
       | RetKind.throwSync e => ImmediateResult.threw e
       | RetKind.retValue v => ImmediateResult.retVal v
       | RetKind.retPromise _ => ImmediateResult.retPromise) := by
  obtain ⟨scb, acb, ret⟩ := desc
  cases scb <;> cases acb <;> cases ret <;>
    simp [invokeSync, handleSyncThrow, handleSyncReturn, applyRequestHook_eq,
      applyResponseHook_eq, endSpanStep_safe cfg hs,
      wrappedCallbackStep_safe cfg hs]

theorem inv_invoke (cfg : Cfg) (hs : cfg.flushersSafe = true)
    (desc : HandlerDesc) (sched : List Nat) :
    Inv desc (invoke cfg desc sched).1 :=
  inv_runSched cfg hs desc _ (inv_invokeSync cfg hs desc) sched

/-! ## Claim C2 -/

/-- C2: the business outcome crossing the instrumentation boundary is the
handler outcome, unchanged, for every completion shape and every settle
order: a synchronous throw is rethrown as is; a non-thenable return value is
returned as is; a returned promise makes the wrapper return a promise which,
once every pending continuation has run, settles exactly as the handler
promise settled (and can never settle with anything else); a callback
invocation (synchronous or deferred) eventually reaches the original host
callback with exactly the supplied error and result, and the host callback
is never invoked with arguments the handler did not supply. Force flushers
are assumed to settle as promises rather than throw synchronously (claim C5
covers that failure mode). -/
theorem C2_business_outcome_preserved (cfg : Cfg) (desc : HandlerDesc)
    (sched : List Nat) (hs : cfg.flushersSafe = true) :
    (∀ e, desc.ret = RetKind.throwSync e →
      (invoke cfg desc sched).2 = ImmediateResult.threw e) ∧
    (∀ v, desc.ret = RetKind.retValue v →
      (invoke cfg desc sched).2 = ImmediateResult.retVal v) ∧
    (∀ o, desc.ret = RetKind.retPromise o →
      (invoke cfg desc sched).2 = ImmediateResult.retPromise ∧
      ((invoke cfg desc sched).1.pending = [] →
        (invoke cfg desc sched).1.resultOutcome = some o)) ∧
    (∀ o, (invoke cfg desc sched).1.resultOutcome = some o →
      desc.ret = RetKind.retPromise o) ∧
    (∀ a, desc.syncCb = some a → (invoke cfg desc sched).1.pending = [] →
      a ∈ (invoke cfg desc sched).1.hostCbCalls) ∧
    (∀ a, desc.asyncCb = some a → (invoke cfg desc sched).1.pending = [] →
      a ∈ (invoke cfg desc sched).1.hostCbCalls) ∧
    (∀ a, a ∈ (invoke cfg desc sched).1.hostCbCalls →
      desc.syncCb = some a ∨ desc.asyncCb = some a) := by
  have hImm : (invoke cfg desc sched).2 = (invokeSync cfg desc).2 := rfl
  have hInv := inv_invoke cfg hs desc sched
  refine ⟨?_, ?_, ?_, ?_, ?_, ?_, ?_⟩
  · intro e hret
    rw [hImm, invokeSync_imm cfg hs desc, hret]
  · intro v hret
    rw [hImm, invokeSync_imm cfg hs desc, hret]
  · intro o hret
    constructor
    · rw [hImm, invokeSync_imm cfg hs desc, hret]
    · intro hdrain
      rcases hInv.progress o hret with h | h | h
      · exact h
      · rw [hdrain] at h
        exact absurd h (List.not_mem_nil _)
      · rw [hdrain] at h
        exact absurd h (List.not_mem_nil _)
  · intro o ho
    exact hInv.outcome o ho
  · intro a ha hdrain
    rcases hInv.syncCbProg a ha with h | h
    · exact h
    · rw [hdrain] at h
      exact absurd h (List.not_mem_nil _)
  · intro a ha hdrain
    rcases hInv.asyncCbProg a ha with h | h | h
    · exact h
    · rw [hdrain] at h
      exact absurd h (List.not_mem_nil _)
    · rw [hdrain] at h
      exact absurd h (List.not_mem_nil _)
  · intro a ha
    exact hInv.calls a ha

/-- Witness for C2 at concrete inputs: a handler that synchronously calls
its callback with (null, "R") and returns a promise fulfilling with "done",
under a drained schedule, yields a wrapper promise fulfilled with "done" and
one host callback invocation carrying exactly (null, "R"). -/
theorem C2_witness :
    (invoke {} descC2 [0, 0, 0]).1.resultOutcome =
      some (Outcome.fulfilled (Val.vstr "done")) ∧
    (none, Val.vstr "R") ∈ (invoke {} descC2 [0, 0, 0]).1.hostCbCalls :=
  ⟨((C2_business_outcome_preserved {} descC2 [0, 0, 0] (by decide)).2.2.1
      (Outcome.fulfilled (Val.vstr "done")) rfl).2 (by decide),
   (C2_business_outcome_preserved {} descC2 [0, 0, 0] (by decide)).2.2.2.2.1
      (none, Val.vstr "R") rfl (by decide)⟩

/-! ## Hook isolation machinery for claim C7 -/

theorem endSpanStep_eq (cfg : Cfg) (s : St) (err : Option JsErr) (k : FlushK) :
    endSpanStep cfg s err k =
      ({ s with
          span := recordErrOnSpan s.span err,
          traceFlushCalls :=
            s.traceFlushCalls + (if cfg.traceFlusher.isSome then 1 else 0),
          metricFlushCalls :=
            s.metricFlushCalls +
              (if cfg.traceThrowsSync then 0
               else if cfg.metricFlusher.isSome then 1 else 0),
          noFlusherDiag :=
            s.noFlusherDiag + (if cfg.traceFlusher.isSome then 0 else 1) +
              (if cfg.traceThrowsSync then 0
               else if cfg.metricFlusher.isSome then 0 else 1),
          pending :=
            s.pending ++
              (if cfg.traceThrowsSync || cfg.metricThrowsSync then []
               else [Ev.flushDone k]) },
       cfg.endSpanThrow) := by
  cases htf : cfg.traceFlusher with
  | none =>
    cases hmf : cfg.metricFlusher with
    | none =>
      simp [endSpanStep, htf, hmf, Cfg.traceThrowsSync, Cfg.metricThrowsSync,
        Cfg.endSpanThrow]
    | some mb =>
      cases mb <;>
        simp [endSpanStep, htf, hmf, Cfg.traceThrowsSync, Cfg.metricThrowsSync,
          Cfg.endSpanThrow]
  | some tb =>
    cases tb with
    | throwsSync e =>
      simp [endSpanStep, htf, Cfg.traceThrowsSync, Cfg.metricThrowsSync,
        Cfg.endSpanThrow]
    | resolves =>
      cases hmf : cfg.metricFlusher with
      | none =>
        simp [endSpanStep, htf, hmf, Cfg.traceThrowsSync, Cfg.metricThrowsSync,
          Cfg.endSpanThrow]
      | some mb =>
        cases mb <;>
          simp [endSpanStep, htf, hmf, Cfg.traceThrowsSync,
            Cfg.metricThrowsSync, Cfg.endSpanThrow]
    | rejects e0 =>
      cases hmf : cfg.metricFlusher with
      | none =>
        simp [endSpanStep, htf, hmf, Cfg.traceThrowsSync, Cfg.metricThrowsSync,
          Cfg.endSpanThrow]
      | some mb =>
        cases mb <;>
          simp [endSpanStep, htf, hmf, Cfg.traceThrowsSync,
            Cfg.metricThrowsSync, Cfg.endSpanThrow]

theorem stEqv_refl (s : St) : StEqv s s :=
  ⟨rfl, rfl, rfl, rfl, rfl, rfl, rfl, rfl, rfl, rfl, rfl⟩

theorem applyRequestHook_eqv (c1 c2 : Cfg)
    (hrq : c1.requestHook.isSome = c2.requestHook.isSome)
    (s t : St) (h : StEqv s t) :
    StEqv (applyRequestHook c1 s) (applyRequestHook c2 t) := by
  obtain ⟨h1, h2, h3, h4, h5, h6, h7, h8, h9, h10, h11⟩ := h
  rw [applyRequestHook_eq, applyRequestHook_eq]
  exact ⟨h1, h2, by rw [h3, hrq], h4, h5, h6, h7, h8, h9, h10, h11⟩

theorem applyResponseHook_eqv (c1 c2 : Cfg) (s t : St) (e : Option JsErr)
    (r : Val) (h : StEqv s t) :
    StEqv (applyResponseHook c1 s e r) (applyResponseHook c2 t e r) := by
  obtain ⟨h1, h2, h3, h4, h5, h6, h7, h8, h9, h10, h11⟩ := h
  rw [applyResponseHook_eq, applyResponseHook_eq]
  exact ⟨h1, h2, h3, by rw [h4], h5, h6, h7, h8, h9, h10, h11⟩

theorem endSpanStep_eqv (c1 c2 : Cfg) (htf : c1.traceFlusher = c2.traceFlusher)
    (hmf : c1.metricFlusher = c2.metricFlusher) (err : Option JsErr)
    (k : FlushK) (s t : St) (h : StEqv s t) :
    StEqv (endSpanStep c1 s err k).1 (endSpanStep c2 t err k).1 ∧
      (endSpanStep c1 s err k).2 = (endSpanStep c2 t err k).2 := by
  obtain ⟨h1, h2, h3, h4, h5, h6, h7, h8, h9, h10, h11⟩ := h
  have hts : c1.traceThrowsSync = c2.traceThrowsSync := by
    unfold Cfg.traceThrowsSync
    rw [htf]
  have hms : c1.metricThrowsSync = c2.metricThrowsSync := by
    unfold Cfg.metricThrowsSync
    rw [hmf]
  have hth : c1.endSpanThrow = c2.endSpanThrow := by
    unfold Cfg.endSpanThrow
    rw [htf, hmf]
  rw [endSpanStep_eq, endSpanStep_eq]
  refine ⟨⟨?_, ?_, ?_, ?_, ?_, ?_, ?_, ?_, ?_, ?_, ?_⟩, ?_⟩ <;>
    simp only [h1, h2, h3, h4, h5, h6, h7, h8, h9, h10, h11, htf, hmf, hts,
      hms, hth]

theorem wrappedCallbackStep_eqv (c1 c2 : Cfg)
    (htf : c1.traceFlusher = c2.traceFlusher)
    (hmf : c1.metricFlusher = c2.metricFlusher) (e : Option JsErr) (r : Val)
    (s t : St) (h : StEqv s t) :
    StEqv (wrappedCallbackStep c1 s e r).1 (wrappedCallbackStep c2 t e r).1 ∧
      (wrappedCallbackStep c1 s e r).2 = (wrappedCallbackStep c2 t e r).2 := by
  unfold wrappedCallbackStep
  exact endSpanStep_eqv c1 c2 htf hmf e (FlushK.afterCb e r) _ _
    (applyResponseHook_eqv c1 c2 s t e r h)

theorem runFlushK_eqv (s t : St) (h : StEqv s t) (k : FlushK) :
    StEqv (runFlushK s k) (runFlushK t k) := by
  obtain ⟨h1, h2, h3, h4, h5, h6, h7, h8, h9, h10, h11⟩ := h
  cases k with
  | discard => exact ⟨h1, h2, h3, h4, h5, h6, h7, h8, h9, h10, h11⟩
  | afterCb e r =>
    exact ⟨h1, rfl, h3, h4, h5, h6, h7,
      by show s.hostCbCalls ++ [(e, r)] = t.hostCbCalls ++ [(e, r)]; rw [h8],
      h9, h10, h11⟩
  | resolveWith v =>
    exact ⟨h1, h2, h3, h4, h5, h6, h7, h8, rfl, h10, h11⟩
  | rejectWith e =>
    exact ⟨h1, h2, h3, h4, h5, h6, h7, h8, rfl, h10, h11⟩

theorem promiseSettledStep_eqv (c1 c2 : Cfg) (hs1 : c1.flushersSafe = true)
    (hs2 : c2.flushersSafe = true) (htf : c1.traceFlusher = c2.traceFlusher)
    (hmf : c1.metricFlusher = c2.metricFlusher) (desc : HandlerDesc)
    (s t : St) (h : StEqv s t) :
    StEqv (promiseSettledStep c1 desc s) (promiseSettledStep c2 desc t) := by
  rcases hret : desc.ret with e | v | o
  · rw [promiseSettledStep_noProm c1 desc s (by simp [hret]),
        promiseSettledStep_noProm c2 desc t (by simp [hret])]
    exact h
  · rw [promiseSettledStep_noProm c1 desc s (by simp [hret]),
        promiseSettledStep_noProm c2 desc t (by simp [hret])]
    exact h
  · by_cases hsp : s.spanEnded = true
    · rw [promiseSettledStep_ended c1 desc o hret s hsp,
          promiseSettledStep_ended c2 desc o hret t (by rw [← h.2.1]; exact hsp)]
      obtain ⟨h1, h2, h3, h4, h5, h6, h7, h8, h9, h10, h11⟩ := h
      exact ⟨h1, h2, h3, h4, h5, h6, h7, h8, rfl, h10, h11⟩
    · have hsp2 : s.spanEnded = false := by simpa using hsp
      rw [promiseSettledStep_live c1 hs1 desc o hret s hsp2,
          promiseSettledStep_live c2 hs2 desc o hret t
            (by rw [← h.2.1]; exact hsp2)]
      obtain ⟨h1, h2, h3, h4, h5, h6, h7, h8, h9, h10, h11⟩ := h
      refine ⟨?_, ?_, ?_, ?_, ?_, ?_, ?_, ?_, ?_, ?_, ?_⟩ <;>
        simp only [h1, h2, h3, h4, h5, h6, h7, h8, h9, h10, h11, htf, hmf]

theorem cbFiresStep_eqv (c1 c2 : Cfg) (hs1 : c1.flushersSafe = true)
    (hs2 : c2.flushersSafe = true) (htf : c1.traceFlusher = c2.traceFlusher)
    (hmf : c1.metricFlusher = c2.metricFlusher) (desc : HandlerDesc)
    (s t : St) (h : StEqv s t) :
    StEqv (cbFiresStep c1 desc s) (cbFiresStep c2 desc t) := by
  cases hacb : desc.asyncCb with
  | none =>
    rw [cbFiresStep_none c1 desc hacb, cbFiresStep_none c2 desc hacb]
    exact h
  | some a =>
    rw [cbFiresStep_safe c1 hs1 desc a hacb, cbFiresStep_safe c2 hs2 desc a hacb]
    obtain ⟨h1, h2, h3, h4, h5, h6, h7, h8, h9, h10, h11⟩ := h
    refine ⟨?_, ?_, ?_, ?_, ?_, ?_, ?_, ?_, ?_, ?_, ?_⟩ <;>
      simp only [h1, h2, h3, h4, h5, h6, h7, h8, h9, h10, h11, htf, hmf]

theorem execEvent_eqv (c1 c2 : Cfg) (hs1 : c1.flushersSafe = true)
    (hs2 : c2.flushersSafe = true) (htf : c1.traceFlusher = c2.traceFlusher)
    (hmf : c1.metricFlusher = c2.metricFlusher) (desc : HandlerDesc)
    (s t : St) (h : StEqv s t) (ev : Ev) :
    StEqv (execEvent c1 desc s ev) (execEvent c2 desc t ev) := by
  cases ev with
  | promiseSettled => exact promiseSettledStep_eqv c1 c2 hs1 hs2 htf hmf desc s t h
  | cbFires => exact cbFiresStep_eqv c1 c2 hs1 hs2 htf hmf desc s t h
  | flushDone k => exact runFlushK_eqv s t h k

theorem step_eqv (c1 c2 : Cfg) (hs1 : c1.flushersSafe = true)
    (hs2 : c2.flushersSafe = true) (htf : c1.traceFlusher = c2.traceFlusher)
    (hmf : c1.metricFlusher = c2.metricFlusher) (desc : HandlerDesc)
    (s t : St) (h : StEqv s t) (i : Nat) :
    StEqv (step c1 desc s i) (step c2 desc t i) := by
  obtain ⟨h1, h2, h3, h4, h5, h6, h7, h8, h9, h10, h11⟩ := h
  obtain ⟨sp1, se1, rq1, ro1, hl1, tf1, mf1, nf1, hc1, out1, un1, pd1⟩ := s
  obtain ⟨sp2, se2, rq2, ro2, hl2, tf2, mf2, nf2, hc2, out2, un2, pd2⟩ := t
  have f1 : sp1 = sp2 := h1
  have f2 : se1 = se2 := h2
  have f3 : rq1 = rq2 := h3
  have f4 : ro1 = ro2 := h4
  have f5 : tf1 = tf2 := h5
  have f6 : mf1 = mf2 := h6
  have f7 : nf1 = nf2 := h7
  have f8 : hc1 = hc2 := h8
  have f9 : out1 = out2 := h9
  have f10 : un1 = un2 := h10
  have f11 : pd1 = pd2 := h11
  subst f1
  subst f2
  subst f3
  subst f4
  subst f5
  subst f6
  subst f7
  subst f8
  subst f9
  subst f10
  subst f11
  by_cases h0 : pd1.length = 0
  · rw [step_of_empty c1 desc
        (St.mk sp1 se1 rq1 ro1 hl1 tf1 mf1 nf1 hc1 out1 un1 pd1) i
        (List.length_eq_zero.mp h0),
      step_of_empty c2 desc
        (St.mk sp1 se1 rq1 ro1 hl2 tf1 mf1 nf1 hc1 out1 un1 pd1) i
        (List.length_eq_zero.mp h0)]
    exact ⟨rfl, rfl, rfl, rfl, rfl, rfl, rfl, rfl, rfl, rfl, rfl⟩
  · rw [step_eq c1 desc
        (St.mk sp1 se1 rq1 ro1 hl1 tf1 mf1 nf1 hc1 out1 un1 pd1) i h0,
      step_eq c2 desc
        (St.mk sp1 se1 rq1 ro1 hl2 tf1 mf1 nf1 hc1 out1 un1 pd1) i h0]
    exact execEvent_eqv c1 c2 hs1 hs2 htf hmf desc _ _
      (by exact ⟨rfl, rfl, rfl, rfl, rfl, rfl, rfl, rfl, rfl, rfl, rfl⟩) _

theorem runSched_eqv (c1 c2 : Cfg) (hs1 : c1.flushersSafe = true)
    (hs2 : c2.flushersSafe = true) (htf : c1.traceFlusher = c2.traceFlusher)
    (hmf : c1.metricFlusher = c2.metricFlusher) (desc : HandlerDesc)
    (s t : St) (h : StEqv s t) (sched : List Nat) :
    StEqv (runSched c1 desc s sched) (runSched c2 desc t sched) := by
  induction sched generalizing s t with
  | nil => exact h
  | cons i rest ih =>
    rw [runSched_cons, runSched_cons]
    exact ih _ _ (step_eqv c1 c2 hs1 hs2 htf hmf desc s t h i)

theorem invokeSync_eqv (c1 c2 : Cfg) (hs1 : c1.flushersSafe = true)
    (hs2 : c2.flushersSafe = true) (htf : c1.traceFlusher = c2.traceFlusher)
    (hmf : c1.metricFlusher = c2.metricFlusher)
    (hrq : c1.requestHook.isSome = c2.requestHook.isSome)
    (desc : HandlerDesc) :
    StEqv (invokeSync c1 desc).1 (invokeSync c2 desc).1 ∧
      (invokeSync c1 desc).2 = (invokeSync c2 desc).2 := by
  obtain ⟨scb, acb, ret⟩ := desc
  cases scb <;> cases acb <;> cases ret <;>
    refine ⟨⟨?_, ?_, ?_, ?_, ?_, ?_, ?_, ?_, ?_, ?_, ?_⟩, ?_⟩ <;>
      simp [invokeSync, handleSyncThrow, handleSyncReturn, applyRequestHook_eq,
        applyResponseHook_eq, endSpanStep_safe c1 hs1, endSpanStep_safe c2 hs2,
        wrappedCallbackStep_safe c1 hs1, wrappedCallbackStep_safe c2 hs2,
        htf, hmf, hrq]

theorem hookLog_le_execEvent (cfg : Cfg) (hs : cfg.flushersSafe = true)
    (desc : HandlerDesc) (s : St) (ev : Ev) :
    s.hookErrorsLogged ≤ (execEvent cfg desc s ev).hookErrorsLogged := by
  cases ev with
  | promiseSettled =>
    show s.hookErrorsLogged ≤ (promiseSettledStep cfg desc s).hookErrorsLogged
    rcases hret : desc.ret with e | v | o
    · rw [promiseSettledStep_noProm cfg desc s (by simp [hret])]
    · rw [promiseSettledStep_noProm cfg desc s (by simp [hret])]
    · by_cases hsp : s.spanEnded = true
      · rw [promiseSettledStep_ended cfg desc o hret s hsp]
      · have hsp2 : s.spanEnded = false := by simpa using hsp
        rw [promiseSettledStep_live cfg hs desc o hret s hsp2]
        exact Nat.le_add_right _ _
  | cbFires =>
    show s.hookErrorsLogged ≤ (cbFiresStep cfg desc s).hookErrorsLogged
    cases hacb : desc.asyncCb with
    | none => rw [cbFiresStep_none cfg desc hacb]
    | some a =>
      rw [cbFiresStep_safe cfg hs desc a hacb]
      exact Nat.le_add_right _ _
  | flushDone k =>
    show s.hookErrorsLogged ≤ (runFlushK s k).hookErrorsLogged
    cases k <;> exact Nat.le_refl _

theorem hookLog_le_step (cfg : Cfg) (hs : cfg.flushersSafe = true)
    (desc : HandlerDesc) (s : St) (i : Nat) :
    s.hookErrorsLogged ≤ (step cfg desc s i).hookErrorsLogged := by
  by_cases h0 : s.pending.length = 0
  · rw [step_of_empty cfg desc s i (List.length_eq_zero.mp h0)]
  · rw [step_eq cfg desc s i h0]
    exact hookLog_le_execEvent cfg hs desc
      { s with pending := s.pending.eraseIdx (i % s.pending.length) } _

theorem hookLog_le_runSched (cfg : Cfg) (hs : cfg.flushersSafe = true)
    (desc : HandlerDesc) (s : St) (sched : List Nat) :
    s.hookErrorsLogged ≤ (runSched cfg desc s sched).hookErrorsLogged := by
  induction sched generalizing s with
  | nil => exact Nat.le_refl _
  | cons i rest ih =>
    rw [runSched_cons]
    exact Nat.le_trans (hookLog_le_step cfg hs desc s i) (ih _)

theorem hookLog_invokeSync_throws (cfg : Cfg) (hs : cfg.flushersSafe = true)
    (desc : HandlerDesc) (hrq : hookThrows cfg.requestHook = true) :
    1 ≤ (invokeSync cfg desc).1.hookErrorsLogged := by
  obtain ⟨scb, acb, ret⟩ := desc
  cases scb <;> cases acb <;> cases ret <;>
    simp [invokeSync, handleSyncThrow, handleSyncReturn, applyRequestHook_eq,
      applyResponseHook_eq, endSpanStep_safe cfg hs,
      wrappedCallbackStep_safe cfg hs, hrq] <;>
    omega

/-! ## Claim C7 -/

/-- C7: throwing request and response hooks are isolated: for every base
configuration (flushers assumed to settle as promises), every handler and
every schedule, the invocation with hooks that throw on every call reaches
exactly the same observable state as the invocation with hooks that return
normally — same span record, same response hook observations, same flush
calls, same host callback invocations, same wrapper result, same pending
queue — differing only in the count of hook errors logged as diagnostics,
which is at least one (the throw is caught and logged); the thrown hook
error never aborts the invocation, never changes the error or result seen
downstream, and adds no pending continuation, so completion is not
delayed. -/
theorem C7_hook_isolation (cfg : Cfg) (desc : HandlerDesc) (sched : List Nat)
    (e1 e2 : JsErr) (hs : cfg.flushersSafe = true) :
    StEqv
      (invoke (cfg.withHooks (some (HookBeh.throws e1)) (some (HookBeh.throws e2)))
        desc sched).1
      (invoke (cfg.withHooks (some HookBeh.ok) (some HookBeh.ok)) desc sched).1 ∧
    (invoke (cfg.withHooks (some (HookBeh.throws e1)) (some (HookBeh.throws e2)))
        desc sched).2 =
      (invoke (cfg.withHooks (some HookBeh.ok) (some HookBeh.ok)) desc sched).2 ∧
    1 ≤ (invoke (cfg.withHooks (some (HookBeh.throws e1)) (some (HookBeh.throws e2)))
        desc sched).1.hookErrorsLogged := by
  have hs1 : (cfg.withHooks (some (HookBeh.throws e1))
      (some (HookBeh.throws e2))).flushersSafe = true := hs
  have hs2 : (cfg.withHooks (some HookBeh.ok)
      (some HookBeh.ok)).flushersSafe = true := hs
  have hsync := invokeSync_eqv _ _ hs1 hs2 rfl rfl rfl desc
  refine ⟨?_, ?_, ?_⟩
  · exact runSched_eqv _ _ hs1 hs2 rfl rfl desc _ _ hsync.1 sched
  · exact hsync.2
  · exact Nat.le_trans (hookLog_invokeSync_throws _ hs1 desc rfl)
      (hookLog_le_runSched _ hs1 desc _ sched)

/-- Witness for C7: at a concrete configuration, handler and schedule, the
run with throwing hooks delivers the same immediate result as the run with
well-behaved hooks, and the hook error was logged. -/
theorem C7_witness :
    (invoke (Cfg.withHooks {} (some (HookBeh.throws (JsErr.errObj "h1")))
        (some (HookBeh.throws (JsErr.errObj "h2")))) (syncRetDesc Val.undef)
      [0]).2 =
      (invoke (Cfg.withHooks {} (some HookBeh.ok) (some HookBeh.ok))
        (syncRetDesc Val.undef) [0]).2 ∧
    1 ≤ (invoke (Cfg.withHooks {} (some (HookBeh.throws (JsErr.errObj "h1")))
        (some (HookBeh.throws (JsErr.errObj "h2")))) (syncRetDesc Val.undef)
      [0]).1.hookErrorsLogged :=
  ⟨(C7_hook_isolation {} (syncRetDesc Val.undef) [0] (JsErr.errObj "h1")
      (JsErr.errObj "h2") (by decide)).2.1,
   (C7_hook_isolation {} (syncRetDesc Val.undef) [0] (JsErr.errObj "h1")
      (JsErr.errObj "h2") (by decide)).2.2⟩

end AwsLambda
